import Mathlib

/-!
Verification development for the Swarm core of a modular peer-to-peer
networking stack (the `libp2p/src/builder.rs` phased SwarmBuilder and the
`swarm/src/behaviour.rs` NetworkBehaviour contract), shallowly embedded in
Lean 4.  Identifiers follow the Rust source where Lean permits.
-/

set_option maxHeartbeats 1000000

namespace Libp2p

/-- A content-addressed peer identifier derived from a public key
(`libp2p_identity::PeerId`).  The derivation is abstracted to the identity
on the abstract public-key value. -/
structure PeerId where
  hash : Nat
deriving DecidableEq, Repr

/-- A layered self-describing network address (`Multiaddr`), abstracted to
its ordered sequence of protocol components. -/
abbrev Multiaddr := List Nat

/-- Opaque, monotonically allocated connection identifier
(`libp2p_swarm::ConnectionId`). -/
abbrev ConnectionId := Nat

/-- Opaque identifier of an active listen endpoint (`ListenerId`). -/
abbrev ListenerId := Nat

/-- The effective role in a dial (`libp2p_core::Endpoint`). -/
inductive Endpoint where
  | dialer
  | listener
deriving DecidableEq, Repr

/-- `libp2p_core::ConnectedPoint`: direction of a connection and the
addresses that framed it. -/
inductive ConnectedPoint where
  | dialerPoint (address : Multiaddr) (roleOverride : Endpoint)
  | listenerPoint (localAddr : Multiaddr) (sendBackAddr : Multiaddr)
deriving DecidableEq, Repr

/-- `libp2p_swarm::ConnectionDenied`: a cause chain produced by behaviour
callbacks refusing a connection; the boxed cause is abstracted to a tag. -/
inductive ConnectionDenied where
  | denied (cause : Nat)
deriving DecidableEq, Repr

/-- Default body of `NetworkBehaviour::handle_pending_inbound_connection`
(behaviour.rs lines 136-143): the default gate always permits, returning
`Ok(())`. -/
def handle_pending_inbound_connection (_connection_id : ConnectionId)
    (_local_addr : Multiaddr) (_remote_addr : Multiaddr) :
    Except ConnectionDenied Unit :=
  Except.ok ()

/-- Default body of `NetworkBehaviour::handle_pending_outbound_connection`
(behaviour.rs lines 172-180): the default gate always permits and adds no
addresses, returning `Ok(vec![])`. -/
def handle_pending_outbound_connection (_connection_id : ConnectionId)
    (_maybe_peer : Option PeerId) (_addresses : List Multiaddr)
    (_effective_role : Endpoint) :
    Except ConnectionDenied (List Multiaddr) :=
  Except.ok []

/-- Modelled from the spec: `DialOpts` (dial_opts.rs is not under src/).
Spec section 3: optional PeerId, optional address list, role override,
whether the behaviour may augment addresses, and the pre-issued
ConnectionId. -/
structure DialOpts where
  maybePeer : Option PeerId
  addresses : List Multiaddr
  roleOverride : Endpoint
  extendAddressesThroughBehaviour : Bool
  connectionId : ConnectionId
deriving DecidableEq, Repr

/-- Modelled from the spec: `ListenOpts` (listen_opts.rs is not under src/);
the address to listen on, with its pre-issued listener id. -/
structure ListenOpts where
  address : Multiaddr
  listenerId : ListenerId
deriving DecidableEq, Repr

/-- `behaviour.rs` enum `NotifyHandler`: which connection handler to notify. -/
inductive NotifyHandler where
  | one (c : ConnectionId)
  | any
deriving DecidableEq, Repr

/-- `behaviour.rs` enum `CloseConnection`: which connections to close. -/
inductive CloseConnection where
  | one (c : ConnectionId)
  | all
deriving DecidableEq, Repr

/-- `behaviour.rs` enum `ToSwarm<TOutEvent, TInEvent>`: a command issued
from a NetworkBehaviour for the Swarm. -/
inductive ToSwarm (TOutEvent : Type) (TInEvent : Type) where
  | generateEvent (e : TOutEvent)
  | dial (opts : DialOpts)
  | listenOn (opts : ListenOpts)
  | removeListener (id : ListenerId)
  | notifyHandler (peer_id : PeerId) (handler : NotifyHandler) (event : TInEvent)
  | newExternalAddrCandidate (addr : Multiaddr)
  | externalAddrConfirmed (addr : Multiaddr)
  | externalAddrExpired (addr : Multiaddr)
  | closeConnection (peer_id : PeerId) (connection : CloseConnection)

/-- `ToSwarm::map_in` (behaviour.rs lines 312-344): map the handler
in-event; every other variant is rebuilt with identical fields. -/
def ToSwarm.map_in {TOutEvent TInEventOld TInEventNew : Type}
    (f : TInEventOld → TInEventNew) :
    ToSwarm TOutEvent TInEventOld → ToSwarm TOutEvent TInEventNew
  | .generateEvent e => .generateEvent e
  | .dial opts => .dial opts
  | .listenOn opts => .listenOn opts
  | .removeListener id => .removeListener id
  | .notifyHandler peer_id handler event => .notifyHandler peer_id handler (f event)
  | .closeConnection peer_id connection => .closeConnection peer_id connection
  | .newExternalAddrCandidate addr => .newExternalAddrCandidate addr
  | .externalAddrConfirmed addr => .externalAddrConfirmed addr
  | .externalAddrExpired addr => .externalAddrExpired addr

/-- `ToSwarm::map_out` (behaviour.rs lines 346-375): map the event the
swarm will return; every other variant is rebuilt with identical fields. -/
def ToSwarm.map_out {TOutEvent THandlerIn E : Type} (f : TOutEvent → E) :
    ToSwarm TOutEvent THandlerIn → ToSwarm E THandlerIn
  | .generateEvent e => .generateEvent (f e)
  | .dial opts => .dial opts
  | .listenOn opts => .listenOn opts
  | .removeListener id => .removeListener id
  | .notifyHandler peer_id handler event => .notifyHandler peer_id handler event
  | .newExternalAddrCandidate addr => .newExternalAddrCandidate addr
  | .externalAddrConfirmed addr => .externalAddrConfirmed addr
  | .externalAddrExpired addr => .externalAddrExpired addr
  | .closeConnection peer_id connection => .closeConnection peer_id connection

/-- Claim C8: the default connection gates never deny: for every input the
default `handle_pending_inbound_connection` returns `Ok(())` and the
default `handle_pending_outbound_connection` returns `Ok` with the empty
address list. -/
theorem default_connection_gates_permit :
    (∀ (cid : ConnectionId) (localAddr remoteAddr : Multiaddr),
      handle_pending_inbound_connection cid localAddr remoteAddr = Except.ok ()) ∧
    (∀ (cid : ConnectionId) (maybePeer : Option PeerId)
      (addresses : List Multiaddr) (role : Endpoint),
      handle_pending_outbound_connection cid maybePeer addresses role = Except.ok []) :=
  ⟨fun _ _ _ => rfl, fun _ _ _ _ => rfl⟩

/-- Claim C10: `ToSwarm::map_out(f)` maps `GenerateEvent(e)` to
`GenerateEvent(f e)` and returns every other variant with all fields
unchanged; symmetrically `map_in(f)` changes only the event field of
`NotifyHandler`. -/
theorem map_out_map_in_frame {TOut TIn TOut2 TIn2 : Type}
    (f : TOut → TOut2) (g : TIn → TIn2) :
    (∀ e : TOut, ToSwarm.map_out f (ToSwarm.generateEvent e : ToSwarm TOut TIn)
        = ToSwarm.generateEvent (f e)) ∧
    (∀ opts, ToSwarm.map_out f (ToSwarm.dial opts : ToSwarm TOut TIn)
        = ToSwarm.dial opts) ∧
    (∀ opts, ToSwarm.map_out f (ToSwarm.listenOn opts : ToSwarm TOut TIn)
        = ToSwarm.listenOn opts) ∧
    (∀ id, ToSwarm.map_out f (ToSwarm.removeListener id : ToSwarm TOut TIn)
        = ToSwarm.removeListener id) ∧
    (∀ p h (e : TIn), ToSwarm.map_out f (ToSwarm.notifyHandler p h e : ToSwarm TOut TIn)
        = ToSwarm.notifyHandler p h e) ∧
    (∀ a, ToSwarm.map_out f (ToSwarm.newExternalAddrCandidate a : ToSwarm TOut TIn)
        = ToSwarm.newExternalAddrCandidate a) ∧
    (∀ a, ToSwarm.map_out f (ToSwarm.externalAddrConfirmed a : ToSwarm TOut TIn)
        = ToSwarm.externalAddrConfirmed a) ∧
    (∀ a, ToSwarm.map_out f (ToSwarm.externalAddrExpired a : ToSwarm TOut TIn)
        = ToSwarm.externalAddrExpired a) ∧
    (∀ p c, ToSwarm.map_out f (ToSwarm.closeConnection p c : ToSwarm TOut TIn)
        = ToSwarm.closeConnection p c) ∧
    (∀ e : TOut, ToSwarm.map_in g (ToSwarm.generateEvent e : ToSwarm TOut TIn)
        = ToSwarm.generateEvent e) ∧
    (∀ opts, ToSwarm.map_in g (ToSwarm.dial opts : ToSwarm TOut TIn)
        = ToSwarm.dial opts) ∧
    (∀ opts, ToSwarm.map_in g (ToSwarm.listenOn opts : ToSwarm TOut TIn)
        = ToSwarm.listenOn opts) ∧
    (∀ id, ToSwarm.map_in g (ToSwarm.removeListener id : ToSwarm TOut TIn)
        = ToSwarm.removeListener id) ∧
    (∀ p h (e : TIn), ToSwarm.map_in g (ToSwarm.notifyHandler p h e : ToSwarm TOut TIn)
        = ToSwarm.notifyHandler p h (g e)) ∧
    (∀ a, ToSwarm.map_in g (ToSwarm.newExternalAddrCandidate a : ToSwarm TOut TIn)
        = ToSwarm.newExternalAddrCandidate a) ∧
    (∀ a, ToSwarm.map_in g (ToSwarm.externalAddrConfirmed a : ToSwarm TOut TIn)
        = ToSwarm.externalAddrConfirmed a) ∧
    (∀ a, ToSwarm.map_in g (ToSwarm.externalAddrExpired a : ToSwarm TOut TIn)
        = ToSwarm.externalAddrExpired a) ∧
    (∀ p c, ToSwarm.map_in g (ToSwarm.closeConnection p c : ToSwarm TOut TIn)
        = ToSwarm.closeConnection p c) :=
  ⟨fun _ => rfl, fun _ => rfl, fun _ => rfl, fun _ => rfl, fun _ _ _ => rfl,
   fun _ => rfl, fun _ => rfl, fun _ => rfl, fun _ _ => rfl,
   fun _ => rfl, fun _ => rfl, fun _ => rfl, fun _ => rfl, fun _ _ _ => rfl,
   fun _ => rfl, fun _ => rfl, fun _ => rfl, fun _ _ => rfl⟩

/-! ## The phased SwarmBuilder (libp2p/src/builder.rs)

Rust enforces the phase order with type-state (`SwarmBuilder<Provider,
Phase>` with phantom provider and per-phase structs).  The shallow
embedding carries the provider tag and the phase payload as data in a
single `Builder` record; each Rust method becomes a Lean function that
matches on the phase it is defined for and, mirroring the fact that the
method does not exist on other phases, leaves any other builder
unchanged. -/

/-- `libp2p_identity::Keypair`, abstracted: the public key value, plus
flags modelling whether the (external) TLS certificate generation and
Noise config derivation succeed for this keypair. -/
structure Keypair where
  public : Nat
  tlsValid : Bool
  noiseValid : Bool
deriving DecidableEq, Repr

/-- Abstract public key; `PublicKey::to_peer_id` is the content-addressed
derivation, abstracted to the identity embedding. -/
abbrev PublicKey := Nat

/-- `keypair.public().to_peer_id()`. -/
def PublicKey.to_peer_id (pk : PublicKey) : PeerId := ⟨pk⟩

/-- The provider phantom type of `SwarmBuilder<Provider, Phase>`
(builder.rs lines 1069-1075: `NoProviderSpecified`, `AsyncStd`, `Tokio`). -/
inductive ProviderTag where
  | noProviderSpecified
  | asyncStd
  | tokio
deriving DecidableEq, Repr

/-- The executor the built Swarm will spawn tasks on.  `build` for the
`AsyncStd` provider calls `with_async_std_executor` (builder.rs 1046-1055)
and `build` for the `Tokio` provider calls `with_tokio_executor`
(builder.rs 1058-1067). -/
inductive Executor where
  | asyncStdExecutor
  | tokioExecutor
deriving DecidableEq, Repr

/-- Which `build` impl exists for the provider tag: none for
`NoProviderSpecified`. -/
def provider_executor : ProviderTag → Option Executor
  | .noProviderSpecified => none
  | .asyncStd => some Executor.asyncStdExecutor
  | .tokio => some Executor.tokioExecutor

/-- `libp2p_tcp::Config` (external crate), abstracted to an opaque token;
its contents are irrelevant to every claim. -/
structure TcpConfig where
deriving DecidableEq, Repr

/-- `libp2p_yamux::Config::default()` (external crate), abstracted. -/
structure YamuxConfig where
deriving DecidableEq, Repr

/-- `libp2p_tls::certificate::GenError` (external crate), abstracted. -/
inductive TlsGenError where
  | genError
deriving DecidableEq, Repr

/-- `libp2p_noise::Error` (external crate), abstracted. -/
inductive NoiseError where
  | keyError
deriving DecidableEq, Repr

/-- A constructed `libp2p_tls::Config`, tagged by the keypair it was
derived from. -/
structure TlsConfig where
  keypair : Keypair
deriving DecidableEq, Repr

/-- A constructed `libp2p_noise::Config`, tagged by the keypair it was
derived from. -/
structure NoiseConfig where
  keypair : Keypair
deriving DecidableEq, Repr

/-- Modelled from the spec: `libp2p_tls::Config::new(&keypair)` lives in an
external crate (not under src/); per the spec it is a fallible builder-time
construction of the TLS 1.3 security upgrade
(`AuthenticationError::Tls(cause)` on failure). -/
def TlsConfig.new (kp : Keypair) : Except TlsGenError TlsConfig :=
  if kp.tlsValid then Except.ok { keypair := kp }
  else Except.error TlsGenError.genError

/-- Modelled from the spec: `libp2p_noise::Config::new(&keypair)` lives in
an external crate (not under src/); per the spec it is a fallible
builder-time construction of the Noise XX security upgrade
(`AuthenticationError::Noise(cause)` on failure). -/
def NoiseConfig.new (kp : Keypair) : Except NoiseError NoiseConfig :=
  if kp.noiseValid then Except.ok { keypair := kp }
  else Except.error NoiseError.keyError

/-- builder.rs lines 267-275: builder-time failures while constructing
security upgrades. -/
inductive AuthenticationError where
  | tls (cause : TlsGenError)
  | noise (cause : NoiseError)
deriving DecidableEq, Repr

/-- builder.rs lines 988-996: websocket-phase failures compose
authentication and DNS acquisition. -/
inductive IOError where
  | resolverUnavailable
  | other (tag : Nat)
deriving DecidableEq, Repr

/-- The phantom security tag of `TcpNoisePhase<A>` and friends:
`Tls` (builder.rs line 263) or `WithoutTls` (line 265). -/
inductive SecurityTag where
  | tls
  | withoutTls
deriving DecidableEq, Repr

/-- `upgrade::Version` of libp2p-core: `V1` or `V1Lazy`. -/
inductive UpgradeVersion where
  | v1
  | v1Lazy
deriving DecidableEq, Repr

/-- The authentication upgrade installed by `.authenticate(..)`:
either a single TLS or Noise config, their `SelectUpgrade` combination,
or the `upgrade::Map` normalising the `Either` output of the select
(builder.rs lines 217-230). -/
inductive SecurityUpgrade where
  | tls (config : TlsConfig)
  | noise (config : NoiseConfig)
  | select (first second : SecurityUpgrade)
  | mapNormalize (inner : SecurityUpgrade)
deriving DecidableEq, Repr

/-- `libp2p_relay::client::Behaviour` returned by
`libp2p_relay::client::new(local_peer_id)` (external crate), abstracted. -/
structure RelayClientBehaviour where
  localPeer : PeerId
deriving DecidableEq, Repr

/-- The relay slot of the websocket/behaviour phases: `NoRelayBehaviour`
(builder.rs line 574) or the relay client behaviour. -/
inductive RelayOpt where
  | noRelay
  | relayClient (b : RelayClientBehaviour)
deriving DecidableEq, Repr

/-- The user-supplied root `NetworkBehaviour`, abstracted to a token. -/
structure UserBehaviour where
  tag : Nat
deriving DecidableEq, Repr

/-- The transport value accumulated by the builder, as the syntax tree of
the combinators applied in builder.rs.  `tcpUpgraded` is the result of the
`construct_quic_builder` macro (lines 187-201): a TCP transport upgraded
with `.upgrade(version).authenticate(auth).multiplex(yamux)` and mapped
into `StreamMuxerBox`; `orSelect a b` is `a.or_transport(b).map(either
.into_inner)`; `relayUpgraded` and `wsUpgraded` are the corresponding
upgrades of lines 683-707 and 894-914. -/
inductive TransportM where
  | dummyT
  | tcpRaw (config : TcpConfig)
  | tcpUpgraded (config : TcpConfig) (version : UpgradeVersion)
      (auth : SecurityUpgrade) (mux : YamuxConfig)
  | quicT (kp : Keypair)
  | relayUpgraded (localPeer : PeerId) (version : UpgradeVersion)
      (auth : SecurityUpgrade) (mux : YamuxConfig)
  | wsUpgraded (inner : TransportM) (version : UpgradeVersion)
      (auth : SecurityUpgrade) (mux : YamuxConfig)
  | dnsWrap (inner : TransportM)
  | orSelect (left right : TransportM)
  | otherT (tag : Nat)
  | boxedT (inner : TransportM)
deriving DecidableEq, Repr

/-- The payload of each builder phase struct (builder.rs: `ProviderPhase`,
`TcpPhase`, `TcpTlsPhase`, `TcpNoisePhase<A>`, `QuicPhase<T>`,
`OtherTransportPhase<T>`, `DnsPhase<T>`, `RelayPhase<T>`,
`RelayTlsPhase<T>`, `RelayNoisePhase<T, A>`, `WebsocketPhase<T, R>`,
`WebsocketTlsPhase<T, R>`, `WebsocketNoisePhase<T, R, A>`,
`BehaviourPhase<R>`, `BuildPhase<B>`). -/
inductive PhaseData where
  | providerP
  | tcpP
  | tcpTlsP (config : TcpConfig)
  | tcpNoiseP (tag : SecurityTag) (config : TcpConfig)
  | quicP (transport : TransportM)
  | otherTransportP (transport : TransportM)
  | dnsP (transport : TransportM)
  | relayP (transport : TransportM)
  | relayTlsP (transport : TransportM)
  | relayNoiseP (tag : SecurityTag) (transport : TransportM)
  | websocketP (transport : TransportM) (relay : RelayOpt)
  | websocketTlsP (transport : TransportM) (relay : RelayOpt)
  | websocketNoiseP (tag : SecurityTag) (transport : TransportM) (relay : RelayOpt)
  | behaviourP (transport : TransportM) (relay : RelayOpt)
  | buildP (transport : TransportM) (behaviour : UserBehaviour)
deriving DecidableEq, Repr

/-- `SwarmBuilder<Provider, Phase>` (builder.rs lines 11-15): the stored
keypair, the phantom provider tag (as data), and the phase payload. -/
structure Builder where
  keypair : Keypair
  provider : ProviderTag
  phase : PhaseData
deriving DecidableEq, Repr

/-- `SwarmBuilder::with_existing_identity` (builder.rs lines 24-33). -/
def with_existing_identity (keypair : Keypair) : Builder :=
  { keypair := keypair, provider := ProviderTag.noProviderSpecified,
    phase := PhaseData.providerP }

/-- `with_async_std` (builder.rs lines 38-45): selects the `AsyncStd`
provider. -/
def with_async_std (b : Builder) : Builder :=
  match b.phase with
  | PhaseData.providerP =>
    { b with provider := ProviderTag.asyncStd, phase := PhaseData.tcpP }
  | _ => b

/-- `with_tokio` (builder.rs lines 47-54).  NOTE: the source return type is
`SwarmBuilder<AsyncStd, TcpPhase>`, so the method tags the builder with the
`AsyncStd` provider, not `Tokio`. -/
def with_tokio (b : Builder) : Builder :=
  match b.phase with
  | PhaseData.providerP =>
    { b with provider := ProviderTag.asyncStd, phase := PhaseData.tcpP }
  | _ => b

/-- `with_tcp_config` (builder.rs lines 65-74). -/
def with_tcp_config (config : TcpConfig) (b : Builder) : Builder :=
  match b.phase with
  | PhaseData.tcpP => { b with phase := PhaseData.tcpTlsP config }
  | _ => b

/-- `with_tcp` (builder.rs lines 61-63): `with_tcp_config(Default)`. -/
def with_tcp (b : Builder) : Builder :=
  with_tcp_config {} b

/-- Hidden `without_tcp` (builder.rs lines 79-92): skips TCP via a dummy
transport placeholder. -/
def without_tcp (b : Builder) : Builder :=
  match b.phase with
  | PhaseData.tcpP => { b with phase := PhaseData.quicP TransportM.dummyT }
  | _ => b

/-- `with_tls` on `TcpTlsPhase` (builder.rs 131-140), on `RelayTlsPhase`
(618-628) and on `WebsocketTlsPhase` (840-851): selects the `Tls` security
tag for the respective layer. -/
def with_tls (b : Builder) : Builder :=
  match b.phase with
  | PhaseData.tcpTlsP config =>
    { b with phase := PhaseData.tcpNoiseP SecurityTag.tls config }
  | PhaseData.relayTlsP t =>
    { b with phase := PhaseData.relayNoiseP SecurityTag.tls t }
  | PhaseData.websocketTlsP t r =>
    { b with phase := PhaseData.websocketNoiseP SecurityTag.tls t r }
  | _ => b

/-- Hidden `without_tls` (builder.rs 142-151, 630-640, 853-863). -/
def without_tls (b : Builder) : Builder :=
  match b.phase with
  | PhaseData.tcpTlsP config =>
    { b with phase := PhaseData.tcpNoiseP SecurityTag.withoutTls config }
  | PhaseData.relayTlsP t =>
    { b with phase := PhaseData.relayNoiseP SecurityTag.withoutTls t }
  | PhaseData.websocketTlsP t r =>
    { b with phase := PhaseData.websocketNoiseP SecurityTag.withoutTls t r }
  | _ => b

/-- `with_noise` on `TcpNoisePhase<Tls>` (builder.rs 206-232) and on
`TcpNoisePhase<WithoutTls>` (245-255), via the `construct_quic_builder`
macro (187-201).  With the `Tls` tag the authenticator is
`upgrade::Map::new(SelectUpgrade::new(tls, noise), normalise)`; with
`WithoutTls` it is the noise config alone.  The `?` on each external
`Config::new` propagates eagerly as `AuthenticationError`. -/
def with_noise (b : Builder) : Except AuthenticationError Builder :=
  match b.phase with
  | PhaseData.tcpNoiseP SecurityTag.tls config =>
    match TlsConfig.new b.keypair with
    | Except.error e => Except.error (AuthenticationError.tls e)
    | Except.ok tc =>
      match NoiseConfig.new b.keypair with
      | Except.error e => Except.error (AuthenticationError.noise e)
      | Except.ok nc =>
        Except.ok { b with phase := (PhaseData.quicP
          (TransportM.tcpUpgraded config UpgradeVersion.v1Lazy
            (SecurityUpgrade.mapNormalize
              (SecurityUpgrade.select (SecurityUpgrade.tls tc)
                (SecurityUpgrade.noise nc))) {})) }
  | PhaseData.tcpNoiseP SecurityTag.withoutTls config =>
    match NoiseConfig.new b.keypair with
    | Except.error e => Except.error (AuthenticationError.noise e)
    | Except.ok nc =>
      Except.ok { b with phase := (PhaseData.quicP
        (TransportM.tcpUpgraded config UpgradeVersion.v1Lazy
          (SecurityUpgrade.noise nc) {})) }
  | _ => Except.ok b

/-- `without_noise` on `TcpNoisePhase<Tls>` (builder.rs 234-241): TLS-only
authenticator. -/
def without_noise (b : Builder) : Except AuthenticationError Builder :=
  match b.phase with
  | PhaseData.tcpNoiseP SecurityTag.tls config =>
    match TlsConfig.new b.keypair with
    | Except.error e => Except.error (AuthenticationError.tls e)
    | Except.ok tc =>
      Except.ok { b with phase := (PhaseData.quicP
        (TransportM.tcpUpgraded config UpgradeVersion.v1Lazy
          (SecurityUpgrade.tls tc) {})) }
  | _ => Except.ok b

/-- `with_quic` (builder.rs 282-325, both providers): attaches the QUIC
transport in parallel via `or_transport` and normalises with `.map`. -/
def with_quic (b : Builder) : Builder :=
  match b.phase with
  | PhaseData.quicP t =>
    { b with phase := (PhaseData.otherTransportP
        (TransportM.orSelect t (TransportM.quicT b.keypair))) }
  | _ => b

/-- Hidden `without_quic` (builder.rs 327-337). -/
def without_quic (b : Builder) : Builder :=
  match b.phase with
  | PhaseData.quicP t => { b with phase := PhaseData.otherTransportP t }
  | _ => b

/-- `with_other_transport` on `OtherTransportPhase` (builder.rs 416-431):
attaches a user-supplied transport built from the keypair, in parallel. -/
def with_other_transport (constructor : Keypair → TransportM) (b : Builder) :
    Builder :=
  match b.phase with
  | PhaseData.otherTransportP t =>
    { b with phase := (PhaseData.otherTransportP
        (TransportM.orSelect t (constructor b.keypair))) }
  | _ => b

/-- Hidden `without_any_other_transports` (builder.rs 434-444). -/
def without_any_other_transports (b : Builder) : Builder :=
  match b.phase with
  | PhaseData.otherTransportP t => { b with phase := PhaseData.dnsP t }
  | _ => b

/-- `with_dns` on `DnsPhase` (builder.rs 498-527): wraps the accumulated
transport in the system DNS resolver; acquisition of the system resolver
may fail with an I/O error, modelled by the `resolverOk` flag. -/
def with_dns (resolverOk : Bool) (b : Builder) : Except IOError Builder :=
  match b.phase with
  | PhaseData.dnsP t =>
    if resolverOk then
      Except.ok { b with phase := PhaseData.relayP (TransportM.dnsWrap t) }
    else Except.error IOError.resolverUnavailable
  | _ => Except.ok b

/-- Hidden `without_dns` (builder.rs 529-540). -/
def without_dns (b : Builder) : Builder :=
  match b.phase with
  | PhaseData.dnsP t => { b with phase := PhaseData.relayP t }
  | _ => b

/-- `with_relay` on `RelayPhase` (builder.rs 561-572). -/
def with_relay (b : Builder) : Builder :=
  match b.phase with
  | PhaseData.relayP t => { b with phase := PhaseData.relayTlsP t }
  | _ => b

/-- Hidden `without_relay` (builder.rs 576-587). -/
def without_relay (b : Builder) : Builder :=
  match b.phase with
  | PhaseData.relayP t =>
    { b with phase := PhaseData.websocketP t RelayOpt.noRelay }
  | _ => b

/-- The `construct_websocket_builder` macro body (builder.rs 683-707):
`libp2p_relay::client::new(keypair.public().to_peer_id())` yields the relay
transport and behaviour; the relay transport is upgraded `V1Lazy` with the
given authenticator and yamux, then or-composed with the accumulated
transport. -/
def construct_websocket_phase (b : Builder) (t : TransportM)
    (auth : SecurityUpgrade) : Builder :=
  { b with phase := (PhaseData.websocketP
      (TransportM.orSelect t
        (TransportM.relayUpgraded (PublicKey.to_peer_id b.keypair.public)
          UpgradeVersion.v1Lazy auth {}))
      (RelayOpt.relayClient ⟨PublicKey.to_peer_id b.keypair.public⟩)) }

/-- `with_noise` on `RelayNoisePhase<T, Tls>` (builder.rs 710-740) and on
`RelayNoisePhase<T, WithoutTls>` (755-771). -/
def relay_with_noise (b : Builder) : Except AuthenticationError Builder :=
  match b.phase with
  | PhaseData.relayNoiseP SecurityTag.tls t =>
    match TlsConfig.new b.keypair with
    | Except.error e => Except.error (AuthenticationError.tls e)
    | Except.ok tc =>
      match NoiseConfig.new b.keypair with
      | Except.error e => Except.error (AuthenticationError.noise e)
      | Except.ok nc =>
        Except.ok (construct_websocket_phase b t
          (SecurityUpgrade.mapNormalize
            (SecurityUpgrade.select (SecurityUpgrade.tls tc)
              (SecurityUpgrade.noise nc))))
  | PhaseData.relayNoiseP SecurityTag.withoutTls t =>
    match NoiseConfig.new b.keypair with
    | Except.error e => Except.error (AuthenticationError.noise e)
    | Except.ok nc =>
      Except.ok (construct_websocket_phase b t (SecurityUpgrade.noise nc))
  | _ => Except.ok b

/-- `without_noise` on `RelayNoisePhase<T, Tls>` (builder.rs 742-752). -/
def relay_without_noise (b : Builder) : Except AuthenticationError Builder :=
  match b.phase with
  | PhaseData.relayNoiseP SecurityTag.tls t =>
    match TlsConfig.new b.keypair with
    | Except.error e => Except.error (AuthenticationError.tls e)
    | Except.ok tc =>
      Except.ok (construct_websocket_phase b t (SecurityUpgrade.tls tc))
  | _ => Except.ok b

/-- `with_websocket` on `WebsocketPhase` (builder.rs 779-790). -/
def with_websocket (b : Builder) : Builder :=
  match b.phase with
  | PhaseData.websocketP t r => { b with phase := PhaseData.websocketTlsP t r }
  | _ => b

/-- builder.rs 988-996: `WebsocketError` composes authentication and DNS
failures. -/
inductive WebsocketError where
  | authentication (e : AuthenticationError)
  | dns (e : IOError)
deriving DecidableEq, Repr

/-- The `construct_behaviour_builder` macro body (builder.rs 894-914): a
fresh DNS-wrapped TCP transport is acquired, wrapped in the WebSocket
codec, upgraded `V1` with the given authenticator and yamux, or-composed
in front of the accumulated transport, and boxed. -/
def construct_behaviour_phase (b : Builder) (t : TransportM) (r : RelayOpt)
    (auth : SecurityUpgrade) : Builder :=
  { b with phase := (PhaseData.behaviourP
      (TransportM.boxedT
        (TransportM.orSelect
          (TransportM.wsUpgraded (TransportM.dnsWrap (TransportM.tcpRaw {}))
            UpgradeVersion.v1 auth {})
          t))
      r) }

/-- `with_noise` on `WebsocketNoisePhase<T, R, Tls>` and
`WebsocketNoisePhase<T, R, WithoutTls>` (builder.rs 916-969): the fresh
DNS-wrapped TCP acquisition (`$dnsTcp.await?`) is evaluated first and maps
its failure to `WebsocketError::Dns`; the authenticator constructions map
theirs through `AuthenticationError` into `WebsocketError::Authentication`. -/
def websocket_with_noise (resolverOk : Bool) (b : Builder) :
    Except WebsocketError Builder :=
  match b.phase with
  | PhaseData.websocketNoiseP SecurityTag.tls t r =>
    if resolverOk then
      match TlsConfig.new b.keypair with
      | Except.error e =>
        Except.error (WebsocketError.authentication (AuthenticationError.tls e))
      | Except.ok tc =>
        match NoiseConfig.new b.keypair with
        | Except.error e =>
          Except.error (WebsocketError.authentication (AuthenticationError.noise e))
        | Except.ok nc =>
          Except.ok (construct_behaviour_phase b t r
            (SecurityUpgrade.mapNormalize
              (SecurityUpgrade.select (SecurityUpgrade.tls tc)
                (SecurityUpgrade.noise nc))))
    else Except.error (WebsocketError.dns IOError.resolverUnavailable)
  | PhaseData.websocketNoiseP SecurityTag.withoutTls t r =>
    if resolverOk then
      match NoiseConfig.new b.keypair with
      | Except.error e =>
        Except.error (WebsocketError.authentication (AuthenticationError.noise e))
      | Except.ok nc =>
        Except.ok (construct_behaviour_phase b t r (SecurityUpgrade.noise nc))
    else Except.error (WebsocketError.dns IOError.resolverUnavailable)
  | _ => Except.ok b

/-- `without_noise` on `WebsocketNoisePhase<T, R, Tls>`
(builder.rs 948-954). -/
def websocket_without_noise (resolverOk : Bool) (b : Builder) :
    Except WebsocketError Builder :=
  match b.phase with
  | PhaseData.websocketNoiseP SecurityTag.tls t r =>
    if resolverOk then
      match TlsConfig.new b.keypair with
      | Except.error e =>
        Except.error (WebsocketError.authentication (AuthenticationError.tls e))
      | Except.ok tc =>
        Except.ok (construct_behaviour_phase b t r (SecurityUpgrade.tls tc))
    else Except.error (WebsocketError.dns IOError.resolverUnavailable)
  | _ => Except.ok b

/-- Hidden `without_websocket` (builder.rs 792-806): boxes the accumulated
transport. -/
def without_websocket (b : Builder) : Builder :=
  match b.phase with
  | PhaseData.websocketP t r =>
    { b with phase := PhaseData.behaviourP (TransportM.boxedT t) r }
  | _ => b

/-- `with_behaviour` on `BehaviourPhase<NoRelayBehaviour>`
(builder.rs 1021-1038): the user constructor receives the keypair; a
fallible constructor (the `TryIntoBehaviour` impl for `Result`) maps its
error to `io::Error`. -/
def with_behaviour (constructor : Keypair → Except IOError UserBehaviour)
    (b : Builder) : Except IOError Builder :=
  match b.phase with
  | PhaseData.behaviourP t RelayOpt.noRelay =>
    match constructor b.keypair with
    | Except.error e => Except.error e
    | Except.ok beh => Except.ok { b with phase := PhaseData.buildP t beh }
  | _ => Except.ok b

/-- `with_behaviour` on `BehaviourPhase<libp2p_relay::client::Behaviour>`
(builder.rs 1004-1019): the user constructor additionally receives the
relay client behaviour. -/
def with_behaviour_relay
    (constructor : Keypair → RelayClientBehaviour → Except IOError UserBehaviour)
    (b : Builder) : Except IOError Builder :=
  match b.phase with
  | PhaseData.behaviourP t (RelayOpt.relayClient rb) =>
    match constructor b.keypair rb with
    | Except.error e => Except.error e
    | Except.ok beh => Except.ok { b with phase := PhaseData.buildP t beh }
  | _ => Except.ok b

/-- The built Swarm (libp2p_swarm, external): boxed transport, root
behaviour, local peer id and the executor chosen by the provider tag. -/
structure Swarm where
  transport : TransportM
  behaviour : UserBehaviour
  localPeerId : PeerId
  executor : Executor
deriving DecidableEq, Repr

/-- `build` (builder.rs 1045-1067): only the `AsyncStd` and `Tokio`
provider tags have a `build` impl; each passes
`self.keypair.public().to_peer_id()` as the local peer id and selects its
executor (`with_async_std_executor` / `with_tokio_executor`). -/
def build (b : Builder) : Option Swarm :=
  match b.phase with
  | PhaseData.buildP t beh =>
    match provider_executor b.provider with
    | some ex =>
      some { transport := t, behaviour := beh,
             localPeerId := PublicKey.to_peer_id b.keypair.public,
             executor := ex }
    | none => none
  | _ => none

/-- One application of a (primitive) phase-transition method of the
builder; the public shortcut methods of builder.rs are compositions of
these.  Fallible methods contribute a step when they return `Ok`. -/
inductive BStep : Builder → Builder → Prop where
  | provAsyncStd (b : Builder) : BStep b (with_async_std b)
  | provTokio (b : Builder) : BStep b (with_tokio b)
  | tcpCfg (config : TcpConfig) (b : Builder) : BStep b (with_tcp_config config b)
  | tcp (b : Builder) : BStep b (with_tcp b)
  | noTcp (b : Builder) : BStep b (without_tcp b)
  | tls (b : Builder) : BStep b (with_tls b)
  | noTls (b : Builder) : BStep b (without_tls b)
  | noiseOk (b b' : Builder) : with_noise b = Except.ok b' → BStep b b'
  | noNoiseOk (b b' : Builder) : without_noise b = Except.ok b' → BStep b b'
  | quic (b : Builder) : BStep b (with_quic b)
  | noQuic (b : Builder) : BStep b (without_quic b)
  | otherTransport (constructor : Keypair → TransportM) (b : Builder) :
      BStep b (with_other_transport constructor b)
  | noOtherTransports (b : Builder) : BStep b (without_any_other_transports b)
  | dnsOk (resolverOk : Bool) (b b' : Builder) :
      with_dns resolverOk b = Except.ok b' → BStep b b'
  | noDns (b : Builder) : BStep b (without_dns b)
  | relay (b : Builder) : BStep b (with_relay b)
  | relayNoiseOk (b b' : Builder) : relay_with_noise b = Except.ok b' → BStep b b'
  | relayNoNoiseOk (b b' : Builder) :
      relay_without_noise b = Except.ok b' → BStep b b'
  | noRelay (b : Builder) : BStep b (without_relay b)
  | websocket (b : Builder) : BStep b (with_websocket b)
  | wsNoiseOk (resolverOk : Bool) (b b' : Builder) :
      websocket_with_noise resolverOk b = Except.ok b' → BStep b b'
  | wsNoNoiseOk (resolverOk : Bool) (b b' : Builder) :
      websocket_without_noise resolverOk b = Except.ok b' → BStep b b'
  | noWebsocket (b : Builder) : BStep b (without_websocket b)
  | behaviourOk (constructor : Keypair → Except IOError UserBehaviour)
      (b b' : Builder) : with_behaviour constructor b = Except.ok b' → BStep b b'
  | behaviourRelayOk
      (constructor : Keypair → RelayClientBehaviour → Except IOError UserBehaviour)
      (b b' : Builder) : with_behaviour_relay constructor b = Except.ok b' → BStep b b'

/-- Every single phase-transition step copies `self.keypair` unchanged. -/
theorem bstep_keypair {b b' : Builder} (h : BStep b b') :
    b'.keypair = b.keypair := by
  cases h with
  | provAsyncStd b => unfold with_async_std; split <;> rfl
  | provTokio b => unfold with_tokio; split <;> rfl
  | tcpCfg config b => unfold with_tcp_config; split <;> rfl
  | tcp b => unfold with_tcp with_tcp_config; split <;> rfl
  | noTcp b => unfold without_tcp; split <;> rfl
  | tls b => unfold with_tls; split <;> rfl
  | noTls b => unfold without_tls; split <;> rfl
  | noiseOk b b' hok =>
    unfold with_noise at hok
    split at hok <;> (try split at hok) <;> (try split at hok) <;>
      cases hok <;> rfl
  | noNoiseOk b b' hok =>
    unfold without_noise at hok
    split at hok <;> (try split at hok) <;> cases hok <;> rfl
  | quic b => unfold with_quic; split <;> rfl
  | noQuic b => unfold without_quic; split <;> rfl
  | otherTransport constructor b => unfold with_other_transport; split <;> rfl
  | noOtherTransports b => unfold without_any_other_transports; split <;> rfl
  | dnsOk resolverOk b b' hok =>
    unfold with_dns at hok
    split at hok <;> (try split at hok) <;> cases hok <;> rfl
  | noDns b => unfold without_dns; split <;> rfl
  | relay b => unfold with_relay; split <;> rfl
  | relayNoiseOk b b' hok =>
    unfold relay_with_noise at hok
    split at hok <;> (try split at hok) <;> (try split at hok) <;>
      cases hok <;> rfl
  | relayNoNoiseOk b b' hok =>
    unfold relay_without_noise at hok
    split at hok <;> (try split at hok) <;> cases hok <;> rfl
  | noRelay b => unfold without_relay; split <;> rfl
  | websocket b => unfold with_websocket; split <;> rfl
  | wsNoiseOk resolverOk b b' hok =>
    unfold websocket_with_noise at hok
    split at hok <;> (try split at hok) <;> (try split at hok) <;>
      (try split at hok) <;> cases hok <;> rfl
  | wsNoNoiseOk resolverOk b b' hok =>
    unfold websocket_without_noise at hok
    split at hok <;> (try split at hok) <;> (try split at hok) <;>
      cases hok <;> rfl
  | noWebsocket b => unfold without_websocket; split <;> rfl
  | behaviourOk constructor b b' hok =>
    unfold with_behaviour at hok
    split at hok <;> (try split at hok) <;> cases hok <;> rfl
  | behaviourRelayOk constructor b b' hok =>
    unfold with_behaviour_relay at hok
    split at hok <;> (try split at hok) <;> cases hok <;> rfl

/-- Claim C9: every phase-transition method of the builder leaves the
stored keypair unchanged, so for every sequence of phase methods starting
from `with_existing_identity(kp)`, the Swarm produced by `build()` has
local PeerId equal to `kp.public().to_peer_id()`. -/
theorem builder_preserves_keypair (kp : Keypair) (b : Builder)
    (h : Relation.ReflTransGen BStep (with_existing_identity kp) b) :
    b.keypair = kp ∧
    ∀ sw : Swarm, build b = some sw →
      sw.localPeerId = PublicKey.to_peer_id kp.public := by
  have hkp : b.keypair = kp := by
    induction h with
    | refl => rfl
    | tail hsteps hstep ih => rw [bstep_keypair hstep]; exact ih
  refine ⟨hkp, ?_⟩
  intro sw hsw
  unfold build at hsw
  split at hsw
  · split at hsw
    · cases hsw; simp [hkp]
    · cases hsw
  · cases hsw

/-- Witness for C9 at a concrete pipeline: identity, tokio provider, all
layers skipped, dummy behaviour; the built Swarm carries PeerId 7. -/
theorem builder_preserves_keypair_witness :
    ∃ sw : Swarm,
      build { keypair := ⟨7, true, true⟩, provider := ProviderTag.asyncStd,
              phase := PhaseData.buildP (TransportM.boxedT TransportM.dummyT) ⟨0⟩ }
        = some sw ∧
      sw.localPeerId = PeerId.mk 7 := by
  have s1 := Relation.ReflTransGen.single
    (BStep.provTokio (with_existing_identity ⟨7, true, true⟩))
  have s2 := Relation.ReflTransGen.tail s1 (BStep.noTcp _)
  have s3 := Relation.ReflTransGen.tail s2 (BStep.noQuic _)
  have s4 := Relation.ReflTransGen.tail s3 (BStep.noOtherTransports _)
  have s5 := Relation.ReflTransGen.tail s4 (BStep.noDns _)
  have s6 := Relation.ReflTransGen.tail s5 (BStep.noRelay _)
  have s7 := Relation.ReflTransGen.tail s6 (BStep.noWebsocket _)
  have s8 := Relation.ReflTransGen.tail s7
    (BStep.behaviourOk (fun _ => Except.ok ⟨0⟩) _
      { keypair := ⟨7, true, true⟩, provider := ProviderTag.asyncStd,
        phase := PhaseData.buildP (TransportM.boxedT TransportM.dummyT) ⟨0⟩ }
      rfl)
  have h := builder_preserves_keypair ⟨7, true, true⟩ _ s8
  exact ⟨_, rfl, h.2 _ rfl⟩

/-- Claim C1 (refuted by the code): `with_tokio` (builder.rs line 48) is
declared to return `SwarmBuilder<AsyncStd, TcpPhase>`, so the builder it
returns carries the `AsyncStd` provider tag, not `Tokio`, and the `build`
reached from it (builder.rs 1046-1055) constructs the Swarm with the
async-std executor.  Evaluating the embedding at a concrete keypair
exhibits this. -/
theorem with_tokio_uses_asyncstd_executor :
    (with_tokio (with_existing_identity ⟨7, true, true⟩)).provider
      = ProviderTag.asyncStd ∧
    ProviderTag.asyncStd ≠ ProviderTag.tokio ∧
    Except.map (fun bb => Option.map Swarm.executor (build bb))
      (with_behaviour (fun _ => Except.ok ⟨0⟩)
        (without_websocket (without_relay (without_dns
          (without_any_other_transports (without_quic (without_tcp
            (with_tokio (with_existing_identity ⟨7, true, true⟩)))))))))
      = Except.ok (some Executor.asyncStdExecutor) ∧
    Executor.asyncStdExecutor ≠ Executor.tokioExecutor :=
  ⟨rfl, by decide, rfl, by decide⟩

/-- Modelled from the spec: an abstract offer made by the remote of a
connection during security negotiation (the libp2p-core upgrade machinery
is not under src/): which of the two authentication protocols the remote
can complete, and the peer identity the successful handshake would
establish. -/
structure ConnOffer where
  supportsTls : Bool
  supportsNoise : Bool
  peer : PeerId
deriving DecidableEq, Repr

/-- Modelled from the spec: multistream-select negotiation of a security
upgrade (libp2p-core `SelectUpgrade` and `upgrade::Map`, not under src/):
a single TLS (resp. Noise) upgrade authenticates exactly the connections
supporting that protocol; `SelectUpgrade` offers both and succeeds with
whichever the connection supports; `Map` only reshapes the output pair and
preserves the negotiated peer. -/
def SecurityUpgrade.negotiate : SecurityUpgrade → ConnOffer → Option PeerId
  | SecurityUpgrade.tls _, conn =>
    if conn.supportsTls then some conn.peer else none
  | SecurityUpgrade.noise _, conn =>
    if conn.supportsNoise then some conn.peer else none
  | SecurityUpgrade.select a b, conn =>
    match SecurityUpgrade.negotiate a conn with
    | some p => some p
    | none => SecurityUpgrade.negotiate b conn
  | SecurityUpgrade.mapNormalize a, conn => SecurityUpgrade.negotiate a conn

/-- Claim C5: when the builder path selects both TLS and Noise for the TCP
layer, `with_noise` installs as authenticator the (Map-normalised)
`SelectUpgrade` over the TLS config and the Noise config, and a connection
authenticated by either of the two succeeds and yields the negotiated
PeerId. -/
theorem tls_noise_select_authenticator (b b' : Builder) (config : TcpConfig)
    (hphase : b.phase = PhaseData.tcpNoiseP SecurityTag.tls config)
    (hok : with_noise b = Except.ok b') :
    ∃ tc nc,
      TlsConfig.new b.keypair = Except.ok tc ∧
      NoiseConfig.new b.keypair = Except.ok nc ∧
      b'.phase = PhaseData.quicP (TransportM.tcpUpgraded config
        UpgradeVersion.v1Lazy (SecurityUpgrade.mapNormalize
          (SecurityUpgrade.select (SecurityUpgrade.tls tc)
            (SecurityUpgrade.noise nc))) {}) ∧
      ∀ conn : ConnOffer,
        (SecurityUpgrade.negotiate (SecurityUpgrade.tls tc) conn
            = some conn.peer ∨
         SecurityUpgrade.negotiate (SecurityUpgrade.noise nc) conn
            = some conn.peer) →
        SecurityUpgrade.negotiate
          (SecurityUpgrade.mapNormalize (SecurityUpgrade.select
            (SecurityUpgrade.tls tc) (SecurityUpgrade.noise nc))) conn
          = some conn.peer := by
  cases b with
  | mk kp prov ph =>
    have hph : ph = PhaseData.tcpNoiseP SecurityTag.tls config := hphase
    subst hph
    cases htls : TlsConfig.new kp with
    | error e => simp [with_noise, htls] at hok
    | ok tc =>
      cases hnoise : NoiseConfig.new kp with
      | error e => simp [with_noise, htls, hnoise] at hok
      | ok nc =>
        simp only [with_noise, htls, hnoise] at hok
        cases hok
        refine ⟨tc, nc, rfl, rfl, rfl, ?_⟩
        intro conn hor
        by_cases hst : conn.supportsTls
        · simp [SecurityUpgrade.negotiate, hst]
        · rcases hor with h | h
          · simp [SecurityUpgrade.negotiate, hst] at h
          · by_cases hsn : conn.supportsNoise
            · simp [SecurityUpgrade.negotiate, hst, hsn]
            · simp [SecurityUpgrade.negotiate, hsn] at h

/-- Witness for C5 at a concrete builder in the TCP+TLS noise phase with
keypair 9: both configs construct, and the installed authenticator accepts
either protocol. -/
theorem tls_noise_select_authenticator_witness :
    ∃ tc nc,
      TlsConfig.new (Builder.mk ⟨9, true, true⟩ ProviderTag.asyncStd
        (PhaseData.tcpNoiseP SecurityTag.tls {})).keypair = Except.ok tc ∧
      NoiseConfig.new (Builder.mk ⟨9, true, true⟩ ProviderTag.asyncStd
        (PhaseData.tcpNoiseP SecurityTag.tls {})).keypair = Except.ok nc ∧
      (Builder.mk ⟨9, true, true⟩ ProviderTag.asyncStd
        (PhaseData.quicP (TransportM.tcpUpgraded {} UpgradeVersion.v1Lazy
          (SecurityUpgrade.mapNormalize
            (SecurityUpgrade.select (SecurityUpgrade.tls ⟨⟨9, true, true⟩⟩)
              (SecurityUpgrade.noise ⟨⟨9, true, true⟩⟩))) {}))).phase
        = PhaseData.quicP (TransportM.tcpUpgraded {}
            UpgradeVersion.v1Lazy (SecurityUpgrade.mapNormalize
              (SecurityUpgrade.select (SecurityUpgrade.tls tc)
                (SecurityUpgrade.noise nc))) {}) ∧
      ∀ conn : ConnOffer,
        (SecurityUpgrade.negotiate (SecurityUpgrade.tls tc) conn
            = some conn.peer ∨
         SecurityUpgrade.negotiate (SecurityUpgrade.noise nc) conn
            = some conn.peer) →
        SecurityUpgrade.negotiate
          (SecurityUpgrade.mapNormalize (SecurityUpgrade.select
            (SecurityUpgrade.tls tc) (SecurityUpgrade.noise nc))) conn
          = some conn.peer :=
  tls_noise_select_authenticator
    (Builder.mk ⟨9, true, true⟩ ProviderTag.asyncStd
      (PhaseData.tcpNoiseP SecurityTag.tls {}))
    (Builder.mk ⟨9, true, true⟩ ProviderTag.asyncStd
      (PhaseData.quicP (TransportM.tcpUpgraded {} UpgradeVersion.v1Lazy
        (SecurityUpgrade.mapNormalize
          (SecurityUpgrade.select (SecurityUpgrade.tls ⟨⟨9, true, true⟩⟩)
            (SecurityUpgrade.noise ⟨⟨9, true, true⟩⟩))) {})))
    {} rfl rfl

/-- Claim C7: builder-time security-construction failures are eager and
typed, for every phase method that constructs TLS or Noise: on the TCP
noise phase, the relay noise phase and the websocket noise phase, if
construction of an underlying config fails then the method itself returns
the typed error — `Err(AuthenticationError::Tls(cause))` or
`Err(AuthenticationError::Noise(cause))`, which the websocket variants
carry inside `WebsocketError::Authentication` — and no next-phase builder
is produced; if construction succeeds the method returns `Ok` with the
next-phase builder.  (For the websocket variants the source acquires the
DNS-wrapped TCP transport before constructing the configs, so the
config-construction behaviour is exhibited with that acquisition
succeeding.) -/
theorem with_noise_eager_typed_errors (b : Builder) (config : TcpConfig)
    (t : TransportM) (r : RelayOpt) :
    (b.phase = PhaseData.tcpNoiseP SecurityTag.tls config →
      (∀ e, TlsConfig.new b.keypair = Except.error e →
        with_noise b = Except.error (AuthenticationError.tls e)) ∧
      (∀ tc e, TlsConfig.new b.keypair = Except.ok tc →
        NoiseConfig.new b.keypair = Except.error e →
        with_noise b = Except.error (AuthenticationError.noise e)) ∧
      (∀ tc nc, TlsConfig.new b.keypair = Except.ok tc →
        NoiseConfig.new b.keypair = Except.ok nc →
        with_noise b = Except.ok { b with phase := (PhaseData.quicP
          (TransportM.tcpUpgraded config UpgradeVersion.v1Lazy
            (SecurityUpgrade.mapNormalize
              (SecurityUpgrade.select (SecurityUpgrade.tls tc)
                (SecurityUpgrade.noise nc))) {})) })) ∧
    (b.phase = PhaseData.tcpNoiseP SecurityTag.withoutTls config →
      (∀ e, NoiseConfig.new b.keypair = Except.error e →
        with_noise b = Except.error (AuthenticationError.noise e)) ∧
      (∀ nc, NoiseConfig.new b.keypair = Except.ok nc →
        with_noise b = Except.ok { b with phase := (PhaseData.quicP
          (TransportM.tcpUpgraded config UpgradeVersion.v1Lazy
            (SecurityUpgrade.noise nc) {})) })) ∧
    (b.phase = PhaseData.tcpNoiseP SecurityTag.tls config →
      (∀ e, TlsConfig.new b.keypair = Except.error e →
        without_noise b = Except.error (AuthenticationError.tls e)) ∧
      (∀ tc, TlsConfig.new b.keypair = Except.ok tc →
        without_noise b = Except.ok { b with phase := (PhaseData.quicP
          (TransportM.tcpUpgraded config UpgradeVersion.v1Lazy
            (SecurityUpgrade.tls tc) {})) })) ∧
    (b.phase = PhaseData.relayNoiseP SecurityTag.tls t →
      (∀ e, TlsConfig.new b.keypair = Except.error e →
        relay_with_noise b = Except.error (AuthenticationError.tls e)) ∧
      (∀ tc e, TlsConfig.new b.keypair = Except.ok tc →
        NoiseConfig.new b.keypair = Except.error e →
        relay_with_noise b = Except.error (AuthenticationError.noise e)) ∧
      (∀ tc nc, TlsConfig.new b.keypair = Except.ok tc →
        NoiseConfig.new b.keypair = Except.ok nc →
        relay_with_noise b = Except.ok (construct_websocket_phase b t
          (SecurityUpgrade.mapNormalize
            (SecurityUpgrade.select (SecurityUpgrade.tls tc)
              (SecurityUpgrade.noise nc)))))) ∧
    (b.phase = PhaseData.relayNoiseP SecurityTag.withoutTls t →
      (∀ e, NoiseConfig.new b.keypair = Except.error e →
        relay_with_noise b = Except.error (AuthenticationError.noise e)) ∧
      (∀ nc, NoiseConfig.new b.keypair = Except.ok nc →
        relay_with_noise b = Except.ok (construct_websocket_phase b t
          (SecurityUpgrade.noise nc)))) ∧
    (b.phase = PhaseData.relayNoiseP SecurityTag.tls t →
      (∀ e, TlsConfig.new b.keypair = Except.error e →
        relay_without_noise b = Except.error (AuthenticationError.tls e)) ∧
      (∀ tc, TlsConfig.new b.keypair = Except.ok tc →
        relay_without_noise b = Except.ok (construct_websocket_phase b t
          (SecurityUpgrade.tls tc)))) ∧
    (b.phase = PhaseData.websocketNoiseP SecurityTag.tls t r →
      (∀ e, TlsConfig.new b.keypair = Except.error e →
        websocket_with_noise true b = Except.error
          (WebsocketError.authentication (AuthenticationError.tls e))) ∧
      (∀ tc e, TlsConfig.new b.keypair = Except.ok tc →
        NoiseConfig.new b.keypair = Except.error e →
        websocket_with_noise true b = Except.error
          (WebsocketError.authentication (AuthenticationError.noise e))) ∧
      (∀ tc nc, TlsConfig.new b.keypair = Except.ok tc →
        NoiseConfig.new b.keypair = Except.ok nc →
        websocket_with_noise true b = Except.ok
          (construct_behaviour_phase b t r
            (SecurityUpgrade.mapNormalize
              (SecurityUpgrade.select (SecurityUpgrade.tls tc)
                (SecurityUpgrade.noise nc)))))) ∧
    (b.phase = PhaseData.websocketNoiseP SecurityTag.withoutTls t r →
      (∀ e, NoiseConfig.new b.keypair = Except.error e →
        websocket_with_noise true b = Except.error
          (WebsocketError.authentication (AuthenticationError.noise e))) ∧
      (∀ nc, NoiseConfig.new b.keypair = Except.ok nc →
        websocket_with_noise true b = Except.ok
          (construct_behaviour_phase b t r (SecurityUpgrade.noise nc)))) ∧
    (b.phase = PhaseData.websocketNoiseP SecurityTag.tls t r →
      (∀ e, TlsConfig.new b.keypair = Except.error e →
        websocket_without_noise true b = Except.error
          (WebsocketError.authentication (AuthenticationError.tls e))) ∧
      (∀ tc, TlsConfig.new b.keypair = Except.ok tc →
        websocket_without_noise true b = Except.ok
          (construct_behaviour_phase b t r (SecurityUpgrade.tls tc)))) := by
  cases b with
  | mk kp prov ph =>
    refine ⟨?_, ?_, ?_, ?_, ?_, ?_, ?_, ?_, ?_⟩
    · intro hph
      have hph2 : ph = PhaseData.tcpNoiseP SecurityTag.tls config := hph
      subst hph2
      refine ⟨?_, ?_, ?_⟩
      · intro e he; simp [with_noise, he]
      · intro tc e htc he; simp [with_noise, htc, he]
      · intro tc nc htc hnc; simp [with_noise, htc, hnc]
    · intro hph
      have hph2 : ph = PhaseData.tcpNoiseP SecurityTag.withoutTls config := hph
      subst hph2
      refine ⟨?_, ?_⟩
      · intro e he; simp [with_noise, he]
      · intro nc hnc; simp [with_noise, hnc]
    · intro hph
      have hph2 : ph = PhaseData.tcpNoiseP SecurityTag.tls config := hph
      subst hph2
      refine ⟨?_, ?_⟩
      · intro e he; simp [without_noise, he]
      · intro tc htc; simp [without_noise, htc]
    · intro hph
      have hph2 : ph = PhaseData.relayNoiseP SecurityTag.tls t := hph
      subst hph2
      refine ⟨?_, ?_, ?_⟩
      · intro e he; simp [relay_with_noise, he]
      · intro tc e htc he; simp [relay_with_noise, htc, he]
      · intro tc nc htc hnc; simp [relay_with_noise, htc, hnc]
    · intro hph
      have hph2 : ph = PhaseData.relayNoiseP SecurityTag.withoutTls t := hph
      subst hph2
      refine ⟨?_, ?_⟩
      · intro e he; simp [relay_with_noise, he]
      · intro nc hnc; simp [relay_with_noise, hnc]
    · intro hph
      have hph2 : ph = PhaseData.relayNoiseP SecurityTag.tls t := hph
      subst hph2
      refine ⟨?_, ?_⟩
      · intro e he; simp [relay_without_noise, he]
      · intro tc htc; simp [relay_without_noise, htc]
    · intro hph
      have hph2 : ph = PhaseData.websocketNoiseP SecurityTag.tls t r := hph
      subst hph2
      refine ⟨?_, ?_, ?_⟩
      · intro e he; simp [websocket_with_noise, he]
      · intro tc e htc he; simp [websocket_with_noise, htc, he]
      · intro tc nc htc hnc; simp [websocket_with_noise, htc, hnc]
    · intro hph
      have hph2 : ph = PhaseData.websocketNoiseP SecurityTag.withoutTls t r := hph
      subst hph2
      refine ⟨?_, ?_⟩
      · intro e he; simp [websocket_with_noise, he]
      · intro nc hnc; simp [websocket_with_noise, hnc]
    · intro hph
      have hph2 : ph = PhaseData.websocketNoiseP SecurityTag.tls t r := hph
      subst hph2
      refine ⟨?_, ?_⟩
      · intro e he; simp [websocket_without_noise, he]
      · intro tc htc; simp [websocket_without_noise, htc]

/-- Witness for C7 at concrete keypairs, one per phase-method family:
keypair 3 (failing TLS generation) makes the TCP-, relay- and
websocket-phase methods return the typed TLS error; keypair 4 (failing
Noise construction) makes the WithoutTls variants return the typed Noise
error; keypair 9 (both succeeding) reaches the next phase on the relay
path. -/
theorem with_noise_eager_typed_errors_witness :
    with_noise (Builder.mk ⟨3, false, true⟩ ProviderTag.asyncStd
        (PhaseData.tcpNoiseP SecurityTag.tls {}))
      = Except.error (AuthenticationError.tls TlsGenError.genError) ∧
    with_noise (Builder.mk ⟨4, true, false⟩ ProviderTag.asyncStd
        (PhaseData.tcpNoiseP SecurityTag.withoutTls {}))
      = Except.error (AuthenticationError.noise NoiseError.keyError) ∧
    relay_with_noise (Builder.mk ⟨3, false, true⟩ ProviderTag.asyncStd
        (PhaseData.relayNoiseP SecurityTag.tls TransportM.dummyT))
      = Except.error (AuthenticationError.tls TlsGenError.genError) ∧
    relay_without_noise (Builder.mk ⟨3, false, true⟩ ProviderTag.asyncStd
        (PhaseData.relayNoiseP SecurityTag.tls TransportM.dummyT))
      = Except.error (AuthenticationError.tls TlsGenError.genError) ∧
    relay_with_noise (Builder.mk ⟨9, true, true⟩ ProviderTag.asyncStd
        (PhaseData.relayNoiseP SecurityTag.withoutTls TransportM.dummyT))
      = Except.ok (construct_websocket_phase
          (Builder.mk ⟨9, true, true⟩ ProviderTag.asyncStd
            (PhaseData.relayNoiseP SecurityTag.withoutTls TransportM.dummyT))
          TransportM.dummyT (SecurityUpgrade.noise ⟨⟨9, true, true⟩⟩)) ∧
    websocket_with_noise true (Builder.mk ⟨4, true, false⟩ ProviderTag.asyncStd
        (PhaseData.websocketNoiseP SecurityTag.withoutTls TransportM.dummyT
          RelayOpt.noRelay))
      = Except.error (WebsocketError.authentication
          (AuthenticationError.noise NoiseError.keyError)) ∧
    websocket_without_noise true (Builder.mk ⟨3, false, true⟩ ProviderTag.asyncStd
        (PhaseData.websocketNoiseP SecurityTag.tls TransportM.dummyT
          RelayOpt.noRelay))
      = Except.error (WebsocketError.authentication
          (AuthenticationError.tls TlsGenError.genError)) :=
  ⟨((with_noise_eager_typed_errors (Builder.mk ⟨3, false, true⟩
      ProviderTag.asyncStd (PhaseData.tcpNoiseP SecurityTag.tls {})) {}
      TransportM.dummyT RelayOpt.noRelay).1 rfl).1 TlsGenError.genError rfl,
   ((with_noise_eager_typed_errors (Builder.mk ⟨4, true, false⟩
      ProviderTag.asyncStd (PhaseData.tcpNoiseP SecurityTag.withoutTls {})) {}
      TransportM.dummyT RelayOpt.noRelay).2.1 rfl).1 NoiseError.keyError rfl,
   ((with_noise_eager_typed_errors (Builder.mk ⟨3, false, true⟩
      ProviderTag.asyncStd (PhaseData.relayNoiseP SecurityTag.tls
        TransportM.dummyT)) {} TransportM.dummyT
      RelayOpt.noRelay).2.2.2.1 rfl).1 TlsGenError.genError rfl,
   ((with_noise_eager_typed_errors (Builder.mk ⟨3, false, true⟩
      ProviderTag.asyncStd (PhaseData.relayNoiseP SecurityTag.tls
        TransportM.dummyT)) {} TransportM.dummyT
      RelayOpt.noRelay).2.2.2.2.2.1 rfl).1 TlsGenError.genError rfl,
   ((with_noise_eager_typed_errors (Builder.mk ⟨9, true, true⟩
      ProviderTag.asyncStd (PhaseData.relayNoiseP SecurityTag.withoutTls
        TransportM.dummyT)) {} TransportM.dummyT
      RelayOpt.noRelay).2.2.2.2.1 rfl).2 ⟨⟨9, true, true⟩⟩ rfl,
   ((with_noise_eager_typed_errors (Builder.mk ⟨4, true, false⟩
      ProviderTag.asyncStd (PhaseData.websocketNoiseP SecurityTag.withoutTls
        TransportM.dummyT RelayOpt.noRelay)) {} TransportM.dummyT
      RelayOpt.noRelay).2.2.2.2.2.2.2.1 rfl).1 NoiseError.keyError rfl,
   ((with_noise_eager_typed_errors (Builder.mk ⟨3, false, true⟩
      ProviderTag.asyncStd (PhaseData.websocketNoiseP SecurityTag.tls
        TransportM.dummyT RelayOpt.noRelay)) {} TransportM.dummyT
      RelayOpt.noRelay).2.2.2.2.2.2.2.2 rfl).1 TlsGenError.genError rfl⟩

/-! ## The Swarm runtime as an event-trace transition system

The Swarm loop itself (swarm.rs) is not under src/; only its contract with
the behaviour (behaviour.rs) is.  The state machine below is modelled from
the spec (section 4.5 "Swarm runtime", section 5 "Ordering guarantees",
section 8 invariants 1-5) and from the documented contract of `FromSwarm`
and `ToSwarm` in behaviour.rs.  Traces record, newest first, the events
the Swarm delivers to the behaviour and the handler invocations it makes. -/

/-- An entry of the behaviour-visible event trace of one Swarm:
`established`/`closed` are the `FromSwarm::ConnectionEstablished` /
`FromSwarm::ConnectionClosed` deliveries, `handlerEvent` a call of
`NetworkBehaviour::on_connection_handler_event`, `notified` an invocation
of `ConnectionHandler::on_behaviour_event`, and the last three the
external-address broadcasts. -/
inductive SEvent where
  | established (p : PeerId) (c : ConnectionId) (ep : ConnectedPoint)
  | closed (p : PeerId) (c : ConnectionId) (ep : ConnectedPoint)
  | handlerEvent (p : PeerId) (c : ConnectionId) (e : Nat)
  | notified (p : PeerId) (c : ConnectionId) (e : Nat)
  | candidate (a : Multiaddr)
  | confirmed (a : Multiaddr)
  | expired (a : Multiaddr)
deriving DecidableEq, Repr

/-- Modelled from the spec: the Swarm-owned state (swarm.rs is not under
src/): the monotone ConnectionId allocator, the registry of open
connections, the external-address candidate and confirmed sets, and the
trace of behaviour-visible events (newest first). -/
structure SwarmState where
  nextId : Nat
  conns : List (ConnectionId × PeerId × ConnectedPoint)
  candidates : List Multiaddr
  confirmedAddrs : List Multiaddr
  trace : List SEvent
deriving DecidableEq, Repr

/-- The freshly created Swarm: no connections, no addresses, empty trace. -/
def initSwarm : SwarmState :=
  { nextId := 0, conns := [], candidates := [], confirmedAddrs := [],
    trace := [] }

/-- Look up the open connection with the given id. -/
def lookupConn (s : SwarmState) (c : ConnectionId) :
    Option (PeerId × ConnectedPoint) :=
  Option.map (fun x => x.2) (List.find? (fun x => decide (x.1 = c)) s.conns)

/-- Modelled from the spec: a connection to `p` over `ep` completes its
upgrade; the Swarm allocates the (monotone, unique) ConnectionId, registers
the connection and delivers `FromSwarm::ConnectionEstablished`. -/
def stepEstablish (s : SwarmState) (p : PeerId) (ep : ConnectedPoint) :
    SwarmState :=
  { s with nextId := s.nextId + 1,
           conns := (s.nextId, p, ep) :: s.conns,
           trace := SEvent.established p s.nextId ep :: s.trace }

/-- Modelled from the spec: connection `c` closes; the Swarm removes it
from the registry and delivers `FromSwarm::ConnectionClosed` with the
stored PeerId and ConnectedPoint; closing an unknown id does nothing. -/
def stepClose (s : SwarmState) (c : ConnectionId) : SwarmState :=
  match lookupConn s c with
  | some (p, ep) =>
    { s with conns := List.filter (fun x => decide (x.1 ≠ c)) s.conns,
             trace := SEvent.closed p c ep :: s.trace }
  | none => s

/-- Modelled from the spec: the handler of open connection `c` emits `e`;
the Swarm dispatches `on_connection_handler_event(peer, c, e)` to the
behaviour; handlers of connections that are not open cannot emit. -/
def stepHandlerEvent (s : SwarmState) (c : ConnectionId) (e : Nat) :
    SwarmState :=
  match lookupConn s c with
  | some (p, _) => { s with trace := SEvent.handlerEvent p c e :: s.trace }
  | none => s

/-- Modelled from the spec (section 4.5 and the `ToSwarm::NotifyHandler`
doc of behaviour.rs 245-267): enactment of
`ToSwarm::NotifyHandler{peer, One(c), e}` — if the connection is open to
that peer the handler's `on_behaviour_event` is invoked exactly once,
otherwise the event is silently dropped with no state change. -/
def notifyOne (s : SwarmState) (peer : PeerId) (c : ConnectionId) (e : Nat) :
    SwarmState :=
  match lookupConn s c with
  | some (p, _) =>
    if p = peer then { s with trace := SEvent.notified peer c e :: s.trace }
    else s
  | none => s

/-- Modelled from the spec: enactment of
`ToSwarm::NewExternalAddrCandidate(a)` — the candidate set is updated and
the candidate is re-broadcast to the behaviour as
`FromSwarm::NewExternalAddrCandidate`. -/
def stepCandidate (s : SwarmState) (a : Multiaddr) : SwarmState :=
  { s with candidates := if a ∈ s.candidates then s.candidates
                         else a :: s.candidates,
           trace := SEvent.candidate a :: s.trace }

/-- Modelled from the spec: enactment of `ToSwarm::ExternalAddrConfirmed(a)`
— per spec section 3 ("confirmation requires prior candidacy") and the doc
of behaviour.rs 285-289 (issued in response to a
`FromSwarm::NewExternalAddrCandidate`), a previously seen candidate is
added to the confirmed set and re-broadcast as
`FromSwarm::ExternalAddrConfirmed`. -/
def stepConfirm (s : SwarmState) (a : Multiaddr) : SwarmState :=
  if a ∈ s.candidates then
    { s with confirmedAddrs := if a ∈ s.confirmedAddrs then s.confirmedAddrs
                               else a :: s.confirmedAddrs,
             trace := SEvent.confirmed a :: s.trace }
  else s

/-- Modelled from the spec: enactment of `ToSwarm::ExternalAddrExpired(a)`
— per spec section 3 "expiry removes from the confirmed set only"; the
candidate set is untouched and the expiry is re-broadcast. -/
def stepExpire (s : SwarmState) (a : Multiaddr) : SwarmState :=
  { s with confirmedAddrs := List.filter (fun x => decide (x ≠ a))
             s.confirmedAddrs,
           trace := SEvent.expired a :: s.trace }

/-- One iteration-step of the Swarm loop visible to the behaviour. -/
inductive SwarmStep : SwarmState → SwarmState → Prop where
  | establish (s : SwarmState) (p : PeerId) (ep : ConnectedPoint) :
      SwarmStep s (stepEstablish s p ep)
  | close (s : SwarmState) (c : ConnectionId) : SwarmStep s (stepClose s c)
  | handlerEv (s : SwarmState) (c : ConnectionId) (e : Nat) :
      SwarmStep s (stepHandlerEvent s c e)
  | notify (s : SwarmState) (peer : PeerId) (c : ConnectionId) (e : Nat) :
      SwarmStep s (notifyOne s peer c e)
  | candidate (s : SwarmState) (a : Multiaddr) :
      SwarmStep s (stepCandidate s a)
  | confirm (s : SwarmState) (a : Multiaddr) : SwarmStep s (stepConfirm s a)
  | expire (s : SwarmState) (a : Multiaddr) : SwarmStep s (stepExpire s a)

/-- The states one Swarm can reach from creation. -/
inductive Reachable : SwarmState → Prop where
  | init : Reachable initSwarm
  | step {s s' : SwarmState} : Reachable s → SwarmStep s s' → Reachable s'

/-- Claim C4: for a `ToSwarm::NotifyHandler{peer, One(c), e}` enacted by
the Swarm, if connection `c` is open (to that peer) the handler's
`on_behaviour_event` is invoked with `e` exactly once — exactly one
`notified` entry is appended and nothing else changes — and if `c` is not
open the event is discarded with no error, no event and no other state
change. -/
theorem notify_handler_semantics (s : SwarmState) (peer : PeerId)
    (c : ConnectionId) (e : Nat) :
    (∀ ep, lookupConn s c = some (peer, ep) →
      notifyOne s peer c e
        = { s with trace := SEvent.notified peer c e :: s.trace }) ∧
    ((∀ ep, lookupConn s c ≠ some (peer, ep)) →
      notifyOne s peer c e = s) := by
  constructor
  · intro ep h
    unfold notifyOne
    rw [h]
    simp
  · intro h
    unfold notifyOne
    cases hl : lookupConn s c with
    | none => rfl
    | some pe =>
      obtain ⟨p2, ep2⟩ := pe
      by_cases hp : p2 = peer
      · subst hp; exact absurd hl (h ep2)
      · simp [hp]

/-- Witness for C4: on the Swarm with the single open connection 0 to
peer 1, notifying connection 0 appends exactly one handler invocation; on
the fresh Swarm (connection 0 not open) the same command is a no-op. -/
theorem notify_handler_semantics_witness :
    notifyOne (stepEstablish initSwarm ⟨1⟩
        (ConnectedPoint.listenerPoint [] [])) ⟨1⟩ 0 5
      = { stepEstablish initSwarm ⟨1⟩ (ConnectedPoint.listenerPoint [] [])
          with trace := SEvent.notified ⟨1⟩ 0 5 ::
            (stepEstablish initSwarm ⟨1⟩
              (ConnectedPoint.listenerPoint [] [])).trace } ∧
    notifyOne initSwarm ⟨1⟩ 0 5 = initSwarm :=
  ⟨(notify_handler_semantics (stepEstablish initSwarm ⟨1⟩
      (ConnectedPoint.listenerPoint [] [])) ⟨1⟩ 0 5).1
      (ConnectedPoint.listenerPoint [] []) rfl,
   (notify_handler_semantics initSwarm ⟨1⟩ 0 5).2
      (fun ep h => by simp [lookupConn, initSwarm] at h)⟩

/-- Trace predicate: a `ConnectionEstablished` delivery for connection `c`. -/
def isEstFor (c : ConnectionId) : SEvent → Bool
  | SEvent.established _ c2 _ => decide (c2 = c)
  | _ => false

/-- Trace predicate: a `ConnectionEstablished` delivery carrying exactly
the triple `(p, c, ep)`. -/
def isEstTriple (p : PeerId) (c : ConnectionId) (ep : ConnectedPoint) :
    SEvent → Bool
  | SEvent.established p2 c2 ep2 => decide (p2 = p ∧ c2 = c ∧ ep2 = ep)
  | _ => false

/-- Trace predicate: a `ConnectionEstablished` delivery for peer `p` and
connection `c`. -/
def isEstPC (p : PeerId) (c : ConnectionId) : SEvent → Bool
  | SEvent.established p2 c2 _ => decide (p2 = p ∧ c2 = c)
  | _ => false

/-- Trace predicate: a `ConnectionClosed` delivery for connection `c`. -/
def isClosedFor (c : ConnectionId) : SEvent → Bool
  | SEvent.closed _ c2 _ => decide (c2 = c)
  | _ => false

theorem isEstFor_true_iff {c : ConnectionId} {ev : SEvent} :
    isEstFor c ev = true ↔ ∃ p ep, ev = SEvent.established p c ep := by
  cases ev <;> simp [isEstFor]

theorem isEstTriple_true_iff {p : PeerId} {c : ConnectionId}
    {ep : ConnectedPoint} {ev : SEvent} :
    isEstTriple p c ep ev = true ↔ ev = SEvent.established p c ep := by
  cases ev <;> simp [isEstTriple]

theorem isEstPC_true_iff {p : PeerId} {c : ConnectionId} {ev : SEvent} :
    isEstPC p c ev = true ↔ ∃ ep, ev = SEvent.established p c ep := by
  cases ev <;> simp [isEstPC]

theorem isClosedFor_true_iff {c : ConnectionId} {ev : SEvent} :
    isClosedFor c ev = true ↔ ∃ p ep, ev = SEvent.closed p c ep := by
  cases ev <;> simp [isClosedFor]

theorem est_count_zero {tr : List SEvent} {n : ConnectionId}
    (h : ∀ p c ep, SEvent.established p c ep ∈ tr → c ≠ n) :
    tr.countP (isEstFor n) = 0 := by
  apply List.countP_eq_zero.mpr
  intro ev hev hp
  obtain ⟨p, ep, rfl⟩ := isEstFor_true_iff.mp hp
  exact h p n ep hev rfl

theorem est_triple_count_zero {tr : List SEvent} {p : PeerId}
    {n : ConnectionId} {ep : ConnectedPoint}
    (h : ∀ p2 c2 ep2, SEvent.established p2 c2 ep2 ∈ tr → c2 ≠ n) :
    tr.countP (isEstTriple p n ep) = 0 := by
  apply List.countP_eq_zero.mpr
  intro ev hev hp
  rw [isEstTriple_true_iff.mp hp] at hev
  exact h p n ep hev rfl

theorem closed_count_zero {tr : List SEvent} {n : ConnectionId}
    (h : ∀ p c ep, SEvent.closed p c ep ∈ tr → c ≠ n) :
    tr.countP (isClosedFor n) = 0 := by
  apply List.countP_eq_zero.mpr
  intro ev hev hp
  obtain ⟨p, ep, rfl⟩ := isClosedFor_true_iff.mp hp
  exact h p n ep hev rfl

theorem triple_mem_of_countP_one {tr : List SEvent} {p : PeerId}
    {c : ConnectionId} {ep : ConnectedPoint}
    (h : tr.countP (isEstTriple p c ep) = 1) :
    SEvent.established p c ep ∈ tr := by
  have hpos : 0 < tr.countP (isEstTriple p c ep) := by omega
  obtain ⟨ev, hmem, hp⟩ := List.countP_pos_iff.mp hpos
  exact isEstTriple_true_iff.mp hp ▸ hmem

theorem countP_triple_le_pc (tr : List SEvent) (p : PeerId)
    (c : ConnectionId) (ep : ConnectedPoint) :
    tr.countP (isEstTriple p c ep) ≤ tr.countP (isEstPC p c) :=
  List.countP_mono_left (fun ev _ hp => by
    rw [isEstTriple_true_iff.mp hp]; simp [isEstPC])

theorem countP_pc_le_est (tr : List SEvent) (p : PeerId)
    (c : ConnectionId) :
    tr.countP (isEstPC p c) ≤ tr.countP (isEstFor c) :=
  List.countP_mono_left (fun ev _ hp => by
    obtain ⟨ep, rfl⟩ := isEstPC_true_iff.mp hp; simp [isEstFor])

theorem decomp_of_cons {ev x : SEvent} {t l₁ l₂ : List SEvent}
    (h : ev :: t = l₁ ++ x :: l₂) :
    (l₁ = [] ∧ ev = x ∧ t = l₂) ∨
    ∃ l₃, l₁ = ev :: l₃ ∧ t = l₃ ++ x :: l₂ := by
  cases l₁ with
  | nil =>
    simp only [List.nil_append, List.cons.injEq] at h
    exact Or.inl ⟨rfl, h.1, h.2⟩
  | cons y l₃ =>
    simp only [List.cons_append, List.cons.injEq] at h
    exact Or.inr ⟨l₃, by rw [h.1], h.2⟩

theorem lookupConn_mem {s : SwarmState} {c : ConnectionId} {p : PeerId}
    {ep : ConnectedPoint} (h : lookupConn s c = some (p, ep)) :
    (c, p, ep) ∈ s.conns := by
  unfold lookupConn at h
  cases hf : List.find? (fun x => decide (x.1 = c)) s.conns with
  | none => rw [hf] at h; cases h
  | some entry =>
    rw [hf] at h
    have hmem := List.mem_of_find?_eq_some hf
    have hpred := List.find?_some hf
    obtain ⟨c3, p3, ep3⟩ := entry
    simp only [decide_eq_true_eq] at hpred
    have h2 : (p3, ep3) = (p, ep) := by simpa using h
    have hp3 : p3 = p := congrArg Prod.fst h2
    have hep3 : ep3 = ep := congrArg Prod.snd h2
    subst hpred hp3 hep3
    exact hmem

/-- The inductive invariant of the Swarm event-trace system.  Traces are
newest first, so for a decomposition `trace = l₁ ++ ev :: l₂` the list
`l₂` holds exactly the events strictly earlier than `ev`. -/
structure SwarmInv (s : SwarmState) : Prop where
  est_lt : ∀ p c ep, SEvent.established p c ep ∈ s.trace → c < s.nextId
  closed_lt : ∀ p c ep, SEvent.closed p c ep ∈ s.trace → c < s.nextId
  est_unique : ∀ c, s.trace.countP (isEstFor c) ≤ 1
  conn_est : ∀ c p ep, (c, p, ep) ∈ s.conns →
    s.trace.countP (isEstTriple p c ep) = 1
  conn_unclosed : ∀ c p ep, (c, p, ep) ∈ s.conns →
    s.trace.countP (isClosedFor c) = 0
  closed_paired : ∀ l₁ p c ep l₂,
    s.trace = l₁ ++ SEvent.closed p c ep :: l₂ →
    l₂.countP (isEstTriple p c ep) = 1
  handler_scoped : ∀ l₁ p c e l₂,
    s.trace = l₁ ++ SEvent.handlerEvent p c e :: l₂ →
    l₂.countP (isEstPC p c) = 1 ∧ l₂.countP (isClosedFor c) = 0
  cand_seen : ∀ a, a ∈ s.candidates → SEvent.candidate a ∈ s.trace
  conf_sub : ∀ a, a ∈ s.confirmedAddrs → a ∈ s.candidates
  conf_scoped : ∀ l₁ a l₂, s.trace = l₁ ++ SEvent.confirmed a :: l₂ →
    SEvent.candidate a ∈ l₂

theorem inv_establish {s : SwarmState} (inv : SwarmInv s) (p : PeerId)
    (ep : ConnectedPoint) : SwarmInv (stepEstablish s p ep) := by
  obtain ⟨est_lt, closed_lt, est_unique, conn_est, conn_unclosed,
    closed_paired, handler_scoped, cand_seen, conf_sub, conf_scoped⟩ := inv
  constructor
  case est_lt =>
    intro p2 c2 ep2 hmem
    simp only [stepEstablish, List.mem_cons] at hmem
    rcases hmem with h | h
    · injection h with h1 h2 h3
      subst h2
      exact Nat.lt_succ_self _
    · exact Nat.lt_succ_of_lt (est_lt _ _ _ h)
  case closed_lt =>
    intro p2 c2 ep2 hmem
    simp only [stepEstablish, List.mem_cons] at hmem
    rcases hmem with h | h
    · cases h
    · exact Nat.lt_succ_of_lt (closed_lt _ _ _ h)
  case est_unique =>
    intro c2
    simp only [stepEstablish]
    by_cases hc : c2 = s.nextId
    · subst hc
      rw [List.countP_cons_of_pos _ _ (by simp [isEstFor])]
      have h0 : s.trace.countP (isEstFor s.nextId) = 0 :=
        est_count_zero (fun p3 c3 ep3 hm => Nat.ne_of_lt (est_lt p3 c3 ep3 hm))
      omega
    · rw [List.countP_cons_of_neg _ _ ?_]
      · exact est_unique c2
      · intro hp
        obtain ⟨p3, ep3, heq⟩ := isEstFor_true_iff.mp hp
        injection heq with e1 e2 e3
        exact hc e2.symm
  case conn_est =>
    intro c2 p2 ep2 hmem
    simp only [stepEstablish, List.mem_cons] at hmem
    rcases hmem with h | h
    · have h1 : c2 = s.nextId := congrArg Prod.fst h
      have h2 : p2 = p := congrArg (fun x => x.2.1) h
      have h3 : ep2 = ep := congrArg (fun x => x.2.2) h
      simp only [stepEstablish]
      rw [h1, h2, h3]
      rw [List.countP_cons_of_pos _ _ (by simp [isEstTriple])]
      have h0 : s.trace.countP (isEstTriple p s.nextId ep) = 0 :=
        est_triple_count_zero
          (fun p3 c3 ep3 hm => Nat.ne_of_lt (est_lt p3 c3 ep3 hm))
      omega
    · have hlt : c2 < s.nextId :=
        est_lt _ _ _ (triple_mem_of_countP_one (conn_est c2 p2 ep2 h))
      simp only [stepEstablish]
      rw [List.countP_cons_of_neg _ _ ?_]
      · exact conn_est c2 p2 ep2 h
      · intro hp
        have heq := isEstTriple_true_iff.mp hp
        injection heq with e1 e2 e3
        exact absurd e2.symm (Nat.ne_of_lt hlt)
  case conn_unclosed =>
    intro c2 p2 ep2 hmem
    simp only [stepEstablish, List.mem_cons] at hmem
    simp only [stepEstablish]
    rw [List.countP_cons_of_neg _ _ (by simp [isClosedFor])]
    rcases hmem with h | h
    · injection h with h1 h23
      injection h23 with h2 h3
      subst h1
      exact closed_count_zero
        (fun p3 c3 ep3 hm => Nat.ne_of_lt (closed_lt p3 c3 ep3 hm))
    · exact conn_unclosed c2 p2 ep2 h
  case closed_paired =>
    intro l₁ p2 c2 ep2 l₂ hdec
    simp only [stepEstablish] at hdec
    rcases decomp_of_cons hdec with ⟨h1, h2, h3⟩ | ⟨l₃, h1, h2⟩
    · cases h2
    · exact closed_paired l₃ p2 c2 ep2 l₂ h2
  case handler_scoped =>
    intro l₁ p2 c2 e2 l₂ hdec
    simp only [stepEstablish] at hdec
    rcases decomp_of_cons hdec with ⟨h1, h2, h3⟩ | ⟨l₃, h1, h2⟩
    · cases h2
    · exact handler_scoped l₃ p2 c2 e2 l₂ h2
  case cand_seen =>
    intro a ha
    simp only [stepEstablish] at ha ⊢
    exact List.mem_cons_of_mem _ (cand_seen a ha)
  case conf_sub =>
    intro a ha
    simp only [stepEstablish] at ha ⊢
    exact conf_sub a ha
  case conf_scoped =>
    intro l₁ a l₂ hdec
    simp only [stepEstablish] at hdec
    rcases decomp_of_cons hdec with ⟨h1, h2, h3⟩ | ⟨l₃, h1, h2⟩
    · cases h2
    · exact conf_scoped l₃ a l₂ h2

theorem inv_close {s : SwarmState} (inv : SwarmInv s) (c : ConnectionId) :
    SwarmInv (stepClose s c) := by
  obtain ⟨est_lt, closed_lt, est_unique, conn_est, conn_unclosed,
    closed_paired, handler_scoped, cand_seen, conf_sub, conf_scoped⟩ := inv
  unfold stepClose
  cases hl : lookupConn s c with
  | none =>
    exact ⟨est_lt, closed_lt, est_unique, conn_est, conn_unclosed,
      closed_paired, handler_scoped, cand_seen, conf_sub, conf_scoped⟩
  | some pe =>
    obtain ⟨p, ep⟩ := pe
    have hcmem : (c, p, ep) ∈ s.conns := lookupConn_mem hl
    have hclt : c < s.nextId :=
      est_lt _ _ _ (triple_mem_of_countP_one (conn_est c p ep hcmem))
    constructor
    case est_lt =>
      intro p2 c2 ep2 hmem
      simp only [List.mem_cons] at hmem
      rcases hmem with h | h
      · cases h
      · exact est_lt _ _ _ h
    case closed_lt =>
      intro p2 c2 ep2 hmem
      simp only [List.mem_cons] at hmem
      rcases hmem with h | h
      · injection h with e1 e2 e3
        subst e2
        exact hclt
      · exact closed_lt _ _ _ h
    case est_unique =>
      intro c2
      rw [List.countP_cons_of_neg _ _ (by simp [isEstFor])]
      exact est_unique c2
    case conn_est =>
      intro c2 p2 ep2 hmem
      have hmem2 := (List.mem_filter.mp hmem).1
      rw [List.countP_cons_of_neg _ _ (by simp [isEstTriple])]
      exact conn_est c2 p2 ep2 hmem2
    case conn_unclosed =>
      intro c2 p2 ep2 hmem
      obtain ⟨hmem2, hpred⟩ := List.mem_filter.mp hmem
      have hne : c2 ≠ c := by simpa using hpred
      rw [List.countP_cons_of_neg _ _ ?_]
      · exact conn_unclosed c2 p2 ep2 hmem2
      · intro hp
        obtain ⟨p3, ep3, heq⟩ := isClosedFor_true_iff.mp hp
        injection heq with e1 e2 e3
        exact hne e2.symm
    case closed_paired =>
      intro l₁ p2 c2 ep2 l₂ hdec
      rcases decomp_of_cons hdec with ⟨h1, h2, h3⟩ | ⟨l₃, h1, h2⟩
      · injection h2 with e1 e2 e3
        subst h3
        rw [← e1, ← e2, ← e3]
        exact conn_est c p ep hcmem
      · exact closed_paired l₃ p2 c2 ep2 l₂ h2
    case handler_scoped =>
      intro l₁ p2 c2 e2 l₂ hdec
      rcases decomp_of_cons hdec with ⟨h1, h2, h3⟩ | ⟨l₃, h1, h2⟩
      · cases h2
      · exact handler_scoped l₃ p2 c2 e2 l₂ h2
    case cand_seen =>
      intro a ha
      exact List.mem_cons_of_mem _ (cand_seen a ha)
    case conf_sub => exact conf_sub
    case conf_scoped =>
      intro l₁ a l₂ hdec
      rcases decomp_of_cons hdec with ⟨h1, h2, h3⟩ | ⟨l₃, h1, h2⟩
      · cases h2
      · exact conf_scoped l₃ a l₂ h2

theorem inv_handler {s : SwarmState} (inv : SwarmInv s) (c : ConnectionId)
    (e : Nat) : SwarmInv (stepHandlerEvent s c e) := by
  obtain ⟨est_lt, closed_lt, est_unique, conn_est, conn_unclosed,
    closed_paired, handler_scoped, cand_seen, conf_sub, conf_scoped⟩ := inv
  unfold stepHandlerEvent
  cases hl : lookupConn s c with
  | none =>
    exact ⟨est_lt, closed_lt, est_unique, conn_est, conn_unclosed,
      closed_paired, handler_scoped, cand_seen, conf_sub, conf_scoped⟩
  | some pe =>
    obtain ⟨p, ep⟩ := pe
    have hcmem : (c, p, ep) ∈ s.conns := lookupConn_mem hl
    constructor
    case est_lt =>
      intro p2 c2 ep2 hmem
      simp only [List.mem_cons] at hmem
      rcases hmem with h | h
      · cases h
      · exact est_lt _ _ _ h
    case closed_lt =>
      intro p2 c2 ep2 hmem
      simp only [List.mem_cons] at hmem
      rcases hmem with h | h
      · cases h
      · exact closed_lt _ _ _ h
    case est_unique =>
      intro c2
      rw [List.countP_cons_of_neg _ _ (by simp [isEstFor])]
      exact est_unique c2
    case conn_est =>
      intro c2 p2 ep2 hmem
      rw [List.countP_cons_of_neg _ _ (by simp [isEstTriple])]
      exact conn_est c2 p2 ep2 hmem
    case conn_unclosed =>
      intro c2 p2 ep2 hmem
      rw [List.countP_cons_of_neg _ _ (by simp [isClosedFor])]
      exact conn_unclosed c2 p2 ep2 hmem
    case closed_paired =>
      intro l₁ p2 c2 ep2 l₂ hdec
      rcases decomp_of_cons hdec with ⟨h1, h2, h3⟩ | ⟨l₃, h1, h2⟩
      · cases h2
      · exact closed_paired l₃ p2 c2 ep2 l₂ h2
    case handler_scoped =>
      intro l₁ p2 c2 e2 l₂ hdec
      rcases decomp_of_cons hdec with ⟨h1, h2, h3⟩ | ⟨l₃, h1, h2⟩
      · injection h2 with e1 e2eq e3
        subst h3
        rw [← e1, ← e2eq]
        constructor
        · have htr : s.trace.countP (isEstTriple p c ep) = 1 :=
            conn_est c p ep hcmem
          have hle1 := countP_triple_le_pc s.trace p c ep
          have hle2 := countP_pc_le_est s.trace p c
          have hle3 := est_unique c
          omega
        · exact conn_unclosed c p ep hcmem
      · exact handler_scoped l₃ p2 c2 e2 l₂ h2
    case cand_seen =>
      intro a ha
      exact List.mem_cons_of_mem _ (cand_seen a ha)
    case conf_sub => exact conf_sub
    case conf_scoped =>
      intro l₁ a l₂ hdec
      rcases decomp_of_cons hdec with ⟨h1, h2, h3⟩ | ⟨l₃, h1, h2⟩
      · cases h2
      · exact conf_scoped l₃ a l₂ h2

theorem inv_notify {s : SwarmState} (inv : SwarmInv s) (peer : PeerId)
    (c : ConnectionId) (e : Nat) : SwarmInv (notifyOne s peer c e) := by
  obtain ⟨est_lt, closed_lt, est_unique, conn_est, conn_unclosed,
    closed_paired, handler_scoped, cand_seen, conf_sub, conf_scoped⟩ := inv
  unfold notifyOne
  cases hl : lookupConn s c with
  | none =>
    exact ⟨est_lt, closed_lt, est_unique, conn_est, conn_unclosed,
      closed_paired, handler_scoped, cand_seen, conf_sub, conf_scoped⟩
  | some pe =>
    obtain ⟨p, ep⟩ := pe
    show SwarmInv (if p = peer
      then { s with trace := SEvent.notified peer c e :: s.trace } else s)
    by_cases hp : p = peer
    · rw [if_pos hp]
      constructor
      ·
        intro p2 c2 ep2 hmem
        simp only [List.mem_cons] at hmem
        rcases hmem with h | h
        · cases h
        · exact est_lt _ _ _ h
      ·
        intro p2 c2 ep2 hmem
        simp only [List.mem_cons] at hmem
        rcases hmem with h | h
        · cases h
        · exact closed_lt _ _ _ h
      ·
        intro c2
        rw [List.countP_cons_of_neg _ _ (by simp [isEstFor])]
        exact est_unique c2
      ·
        intro c2 p2 ep2 hmem
        rw [List.countP_cons_of_neg _ _ (by simp [isEstTriple])]
        exact conn_est c2 p2 ep2 hmem
      ·
        intro c2 p2 ep2 hmem
        rw [List.countP_cons_of_neg _ _ (by simp [isClosedFor])]
        exact conn_unclosed c2 p2 ep2 hmem
      ·
        intro l₁ p2 c2 ep2 l₂ hdec
        rcases decomp_of_cons hdec with ⟨h1, h2, h3⟩ | ⟨l₃, h1, h2⟩
        · cases h2
        · exact closed_paired l₃ p2 c2 ep2 l₂ h2
      ·
        intro l₁ p2 c2 e2 l₂ hdec
        rcases decomp_of_cons hdec with ⟨h1, h2, h3⟩ | ⟨l₃, h1, h2⟩
        · cases h2
        · exact handler_scoped l₃ p2 c2 e2 l₂ h2
      ·
        intro a ha
        exact List.mem_cons_of_mem _ (cand_seen a ha)
      · exact conf_sub
      ·
        intro l₁ a l₂ hdec
        rcases decomp_of_cons hdec with ⟨h1, h2, h3⟩ | ⟨l₃, h1, h2⟩
        · cases h2
        · exact conf_scoped l₃ a l₂ h2
    · rw [if_neg hp]
      exact ⟨est_lt, closed_lt, est_unique, conn_est, conn_unclosed,
        closed_paired, handler_scoped, cand_seen, conf_sub, conf_scoped⟩

theorem inv_candidate {s : SwarmState} (inv : SwarmInv s) (a : Multiaddr) :
    SwarmInv (stepCandidate s a) := by
  obtain ⟨est_lt, closed_lt, est_unique, conn_est, conn_unclosed,
    closed_paired, handler_scoped, cand_seen, conf_sub, conf_scoped⟩ := inv
  constructor
  case est_lt =>
    intro p2 c2 ep2 hmem
    simp only [stepCandidate, List.mem_cons] at hmem
    rcases hmem with h | h
    · cases h
    · exact est_lt _ _ _ h
  case closed_lt =>
    intro p2 c2 ep2 hmem
    simp only [stepCandidate, List.mem_cons] at hmem
    rcases hmem with h | h
    · cases h
    · exact closed_lt _ _ _ h
  case est_unique =>
    intro c2
    simp only [stepCandidate]
    rw [List.countP_cons_of_neg _ _ (by simp [isEstFor])]
    exact est_unique c2
  case conn_est =>
    intro c2 p2 ep2 hmem
    simp only [stepCandidate] at hmem ⊢
    rw [List.countP_cons_of_neg _ _ (by simp [isEstTriple])]
    exact conn_est c2 p2 ep2 hmem
  case conn_unclosed =>
    intro c2 p2 ep2 hmem
    simp only [stepCandidate] at hmem ⊢
    rw [List.countP_cons_of_neg _ _ (by simp [isClosedFor])]
    exact conn_unclosed c2 p2 ep2 hmem
  case closed_paired =>
    intro l₁ p2 c2 ep2 l₂ hdec
    simp only [stepCandidate] at hdec
    rcases decomp_of_cons hdec with ⟨h1, h2, h3⟩ | ⟨l₃, h1, h2⟩
    · cases h2
    · exact closed_paired l₃ p2 c2 ep2 l₂ h2
  case handler_scoped =>
    intro l₁ p2 c2 e2 l₂ hdec
    simp only [stepCandidate] at hdec
    rcases decomp_of_cons hdec with ⟨h1, h2, h3⟩ | ⟨l₃, h1, h2⟩
    · cases h2
    · exact handler_scoped l₃ p2 c2 e2 l₂ h2
  case cand_seen =>
    intro a2 ha
    simp only [stepCandidate] at ha ⊢
    by_cases hmem : a ∈ s.candidates
    · rw [if_pos hmem] at ha
      exact List.mem_cons_of_mem _ (cand_seen a2 ha)
    · rw [if_neg hmem] at ha
      rcases List.mem_cons.mp ha with h | h
      · subst h
        exact List.mem_cons_self _ _
      · exact List.mem_cons_of_mem _ (cand_seen a2 h)
  case conf_sub =>
    intro a2 ha
    simp only [stepCandidate] at ha ⊢
    by_cases hmem : a ∈ s.candidates
    · rw [if_pos hmem]
      exact conf_sub a2 ha
    · rw [if_neg hmem]
      exact List.mem_cons_of_mem _ (conf_sub a2 ha)
  case conf_scoped =>
    intro l₁ a2 l₂ hdec
    simp only [stepCandidate] at hdec
    rcases decomp_of_cons hdec with ⟨h1, h2, h3⟩ | ⟨l₃, h1, h2⟩
    · cases h2
    · exact conf_scoped l₃ a2 l₂ h2

theorem inv_confirm {s : SwarmState} (inv : SwarmInv s) (a : Multiaddr) :
    SwarmInv (stepConfirm s a) := by
  obtain ⟨est_lt, closed_lt, est_unique, conn_est, conn_unclosed,
    closed_paired, handler_scoped, cand_seen, conf_sub, conf_scoped⟩ := inv
  unfold stepConfirm
  by_cases hc : a ∈ s.candidates
  · rw [if_pos hc]
    constructor
    ·
      intro p2 c2 ep2 hmem
      simp only [List.mem_cons] at hmem
      rcases hmem with h | h
      · cases h
      · exact est_lt _ _ _ h
    ·
      intro p2 c2 ep2 hmem
      simp only [List.mem_cons] at hmem
      rcases hmem with h | h
      · cases h
      · exact closed_lt _ _ _ h
    ·
      intro c2
      rw [List.countP_cons_of_neg _ _ (by simp [isEstFor])]
      exact est_unique c2
    ·
      intro c2 p2 ep2 hmem
      rw [List.countP_cons_of_neg _ _ (by simp [isEstTriple])]
      exact conn_est c2 p2 ep2 hmem
    ·
      intro c2 p2 ep2 hmem
      rw [List.countP_cons_of_neg _ _ (by simp [isClosedFor])]
      exact conn_unclosed c2 p2 ep2 hmem
    ·
      intro l₁ p2 c2 ep2 l₂ hdec
      rcases decomp_of_cons hdec with ⟨h1, h2, h3⟩ | ⟨l₃, h1, h2⟩
      · cases h2
      · exact closed_paired l₃ p2 c2 ep2 l₂ h2
    ·
      intro l₁ p2 c2 e2 l₂ hdec
      rcases decomp_of_cons hdec with ⟨h1, h2, h3⟩ | ⟨l₃, h1, h2⟩
      · cases h2
      · exact handler_scoped l₃ p2 c2 e2 l₂ h2
    ·
      intro a2 ha
      exact List.mem_cons_of_mem _ (cand_seen a2 ha)
    ·
      intro a2 ha
      by_cases hmem : a ∈ s.confirmedAddrs
      · rw [if_pos hmem] at ha
        exact conf_sub a2 ha
      · rw [if_neg hmem] at ha
        rcases List.mem_cons.mp ha with h | h
        · subst h
          exact hc
        · exact conf_sub a2 h
    ·
      intro l₁ a2 l₂ hdec
      rcases decomp_of_cons hdec with ⟨h1, h2, h3⟩ | ⟨l₃, h1, h2⟩
      · injection h2 with e1
        subst h3
        rw [← e1]
        exact cand_seen a hc
      · exact conf_scoped l₃ a2 l₂ h2
  · rw [if_neg hc]
    exact ⟨est_lt, closed_lt, est_unique, conn_est, conn_unclosed,
      closed_paired, handler_scoped, cand_seen, conf_sub, conf_scoped⟩

theorem inv_expire {s : SwarmState} (inv : SwarmInv s) (a : Multiaddr) :
    SwarmInv (stepExpire s a) := by
  obtain ⟨est_lt, closed_lt, est_unique, conn_est, conn_unclosed,
    closed_paired, handler_scoped, cand_seen, conf_sub, conf_scoped⟩ := inv
  constructor
  case est_lt =>
    intro p2 c2 ep2 hmem
    simp only [stepExpire, List.mem_cons] at hmem
    rcases hmem with h | h
    · cases h
    · exact est_lt _ _ _ h
  case closed_lt =>
    intro p2 c2 ep2 hmem
    simp only [stepExpire, List.mem_cons] at hmem
    rcases hmem with h | h
    · cases h
    · exact closed_lt _ _ _ h
  case est_unique =>
    intro c2
    simp only [stepExpire]
    rw [List.countP_cons_of_neg _ _ (by simp [isEstFor])]
    exact est_unique c2
  case conn_est =>
    intro c2 p2 ep2 hmem
    simp only [stepExpire] at hmem ⊢
    rw [List.countP_cons_of_neg _ _ (by simp [isEstTriple])]
    exact conn_est c2 p2 ep2 hmem
  case conn_unclosed =>
    intro c2 p2 ep2 hmem
    simp only [stepExpire] at hmem ⊢
    rw [List.countP_cons_of_neg _ _ (by simp [isClosedFor])]
    exact conn_unclosed c2 p2 ep2 hmem
  case closed_paired =>
    intro l₁ p2 c2 ep2 l₂ hdec
    simp only [stepExpire] at hdec
    rcases decomp_of_cons hdec with ⟨h1, h2, h3⟩ | ⟨l₃, h1, h2⟩
    · cases h2
    · exact closed_paired l₃ p2 c2 ep2 l₂ h2
  case handler_scoped =>
    intro l₁ p2 c2 e2 l₂ hdec
    simp only [stepExpire] at hdec
    rcases decomp_of_cons hdec with ⟨h1, h2, h3⟩ | ⟨l₃, h1, h2⟩
    · cases h2
    · exact handler_scoped l₃ p2 c2 e2 l₂ h2
  case cand_seen =>
    intro a2 ha
    simp only [stepExpire] at ha ⊢
    exact List.mem_cons_of_mem _ (cand_seen a2 ha)
  case conf_sub =>
    intro a2 ha
    simp only [stepExpire] at ha ⊢
    exact conf_sub a2 (List.mem_of_mem_filter ha)
  case conf_scoped =>
    intro l₁ a2 l₂ hdec
    simp only [stepExpire] at hdec
    rcases decomp_of_cons hdec with ⟨h1, h2, h3⟩ | ⟨l₃, h1, h2⟩
    · cases h2
    · exact conf_scoped l₃ a2 l₂ h2

/-- Every reachable Swarm state satisfies the inductive invariant. -/
theorem reachable_inv {s : SwarmState} (h : Reachable s) : SwarmInv s := by
  induction h with
  | init =>
    constructor
    case est_lt => intro p c ep h; cases h
    case closed_lt => intro p c ep h; cases h
    case est_unique => intro c; simp [initSwarm]
    case conn_est => intro c p ep h; cases h
    case conn_unclosed => intro c p ep h; cases h
    case closed_paired =>
      intro l₁ p c ep l₂ hdec
      cases l₁ <;> simp [initSwarm] at hdec
    case handler_scoped =>
      intro l₁ p c e l₂ hdec
      cases l₁ <;> simp [initSwarm] at hdec
    case cand_seen => intro a h; cases h
    case conf_sub => intro a h; cases h
    case conf_scoped =>
      intro l₁ a l₂ hdec
      cases l₁ <;> simp [initSwarm] at hdec
  | step hr hstep ih =>
    cases hstep with
    | establish p ep => exact inv_establish ih p ep
    | close c => exact inv_close ih c
    | handlerEv c e => exact inv_handler ih c e
    | notify peer c e => exact inv_notify ih peer c e
    | candidate a => exact inv_candidate ih a
    | confirm a => exact inv_confirm ih a
    | expire a => exact inv_expire ih a

/-- Claim C2: in every reachable event trace of one Swarm, no ConnectionId
receives `ConnectionEstablished` more than once, and every
`ConnectionClosed` delivery is preceded by exactly one earlier
`ConnectionEstablished` carrying the same PeerId, ConnectionId and
ConnectedPoint (traces are newest first, so the earlier events of an
occurrence are the suffix `l₂`). -/
theorem connection_closed_paired (s : SwarmState) (h : Reachable s) :
    (∀ c, s.trace.countP (isEstFor c) ≤ 1) ∧
    (∀ l₁ p c ep l₂, s.trace = l₁ ++ SEvent.closed p c ep :: l₂ →
      l₂.countP (isEstTriple p c ep) = 1) :=
  ⟨(reachable_inv h).est_unique, (reachable_inv h).closed_paired⟩

/-- Witness for C2: the two-step run establish-then-close of connection 0
to peer 1. -/
theorem connection_closed_paired_witness :
    (stepClose (stepEstablish initSwarm ⟨1⟩
        (ConnectedPoint.listenerPoint [] [])) 0).trace.countP (isEstFor 0)
      ≤ 1 ∧
    List.countP (isEstTriple ⟨1⟩ 0 (ConnectedPoint.listenerPoint [] []))
      [SEvent.established ⟨1⟩ 0 (ConnectedPoint.listenerPoint [] [])] = 1 := by
  have hr : Reachable (stepClose (stepEstablish initSwarm ⟨1⟩
      (ConnectedPoint.listenerPoint [] [])) 0) :=
    Reachable.step
      (Reachable.step Reachable.init
        (SwarmStep.establish initSwarm ⟨1⟩ (ConnectedPoint.listenerPoint [] [])))
      (SwarmStep.close _ 0)
  have h := connection_closed_paired _ hr
  exact ⟨h.1 0, h.2 [] ⟨1⟩ 0 (ConnectedPoint.listenerPoint [] [])
    [SEvent.established ⟨1⟩ 0 (ConnectedPoint.listenerPoint [] [])] (by decide)⟩

/-- Claim C3: in every reachable event trace of one Swarm, every
`on_connection_handler_event(peer, c, e)` call on the behaviour is
strictly preceded by a `ConnectionEstablished` for that ConnectionId and
PeerId, and no `ConnectionClosed` for that ConnectionId occurs earlier
(so any such close is strictly later). -/
theorem handler_event_within_lifecycle (s : SwarmState) (h : Reachable s) :
    ∀ l₁ p c e l₂, s.trace = l₁ ++ SEvent.handlerEvent p c e :: l₂ →
      (∃ ep, SEvent.established p c ep ∈ l₂) ∧
      (∀ p2 ep, SEvent.closed p2 c ep ∉ l₂) := by
  intro l₁ p c e l₂ hdec
  obtain ⟨h1, h2⟩ := (reachable_inv h).handler_scoped l₁ p c e l₂ hdec
  constructor
  · have hpos : 0 < l₂.countP (isEstPC p c) := by omega
    obtain ⟨ev, hmem, hp⟩ := List.countP_pos_iff.mp hpos
    obtain ⟨ep, rfl⟩ := isEstPC_true_iff.mp hp
    exact ⟨ep, hmem⟩
  · intro p2 ep hmem
    have hz := List.countP_eq_zero.mp h2 _ hmem
    exact hz (by simp [isClosedFor])

/-- Witness for C3: the two-step run establish-then-handler-event of
connection 0 to peer 1. -/
theorem handler_event_within_lifecycle_witness :
    (∃ ep, SEvent.established ⟨1⟩ 0 ep ∈
      [SEvent.established ⟨1⟩ 0 (ConnectedPoint.listenerPoint [] [])]) ∧
    (∀ p2 ep, SEvent.closed p2 0 ep ∉
      [SEvent.established ⟨1⟩ 0 (ConnectedPoint.listenerPoint [] [])]) := by
  have hr : Reachable (stepHandlerEvent (stepEstablish initSwarm ⟨1⟩
      (ConnectedPoint.listenerPoint [] [])) 0 42) :=
    Reachable.step
      (Reachable.step Reachable.init
        (SwarmStep.establish initSwarm ⟨1⟩ (ConnectedPoint.listenerPoint [] [])))
      (SwarmStep.handlerEv _ 0 42)
  exact handler_event_within_lifecycle _ hr [] ⟨1⟩ 0 42
    [SEvent.established ⟨1⟩ 0 (ConnectedPoint.listenerPoint [] [])] (by decide)

/-- Claim C6: in every reachable Swarm state, every address in the
confirmed external-address set was earlier observed as a candidate
(broadcast via `NewExternalAddrCandidate` before every confirmed-set
insertion of it), and an `ExternalAddrExpired` enactment removes the
address from the confirmed set only, never from the candidate set. -/
theorem external_addr_confirm_expire (s : SwarmState) (h : Reachable s) :
    (∀ a, a ∈ s.confirmedAddrs →
      SEvent.candidate a ∈ s.trace ∧
      ∀ l₁ l₂, s.trace = l₁ ++ SEvent.confirmed a :: l₂ →
        SEvent.candidate a ∈ l₂) ∧
    (∀ a, (stepExpire s a).candidates = s.candidates ∧
      (stepExpire s a).confirmedAddrs
        = List.filter (fun x => decide (x ≠ a)) s.confirmedAddrs) := by
  have inv := reachable_inv h
  refine ⟨?_, ?_⟩
  · intro a ha
    exact ⟨inv.cand_seen a (inv.conf_sub a ha),
      fun l₁ l₂ hdec => inv.conf_scoped l₁ a l₂ hdec⟩
  · intro a
    exact ⟨rfl, rfl⟩

/-- Witness for C6: the run candidate-then-confirm of address `[1, 2]`. -/
theorem external_addr_confirm_expire_witness :
    (SEvent.candidate [1, 2] ∈
        (stepConfirm (stepCandidate initSwarm [1, 2]) [1, 2]).trace ∧
      ∀ l₁ l₂, (stepConfirm (stepCandidate initSwarm [1, 2]) [1, 2]).trace
          = l₁ ++ SEvent.confirmed [1, 2] :: l₂ →
        SEvent.candidate [1, 2] ∈ l₂) ∧
    ((stepExpire (stepConfirm (stepCandidate initSwarm [1, 2]) [1, 2])
        [1, 2]).candidates
      = (stepConfirm (stepCandidate initSwarm [1, 2]) [1, 2]).candidates ∧
     (stepExpire (stepConfirm (stepCandidate initSwarm [1, 2]) [1, 2])
        [1, 2]).confirmedAddrs
      = List.filter (fun x => decide (x ≠ [1, 2]))
          (stepConfirm (stepCandidate initSwarm [1, 2]) [1, 2]).confirmedAddrs) := by
  have hr : Reachable (stepConfirm (stepCandidate initSwarm [1, 2]) [1, 2]) :=
    Reachable.step
      (Reachable.step Reachable.init (SwarmStep.candidate initSwarm [1, 2]))
      (SwarmStep.confirm _ [1, 2])
  have h := external_addr_confirm_expire _ hr
  exact ⟨h.1 [1, 2] (by decide), h.2 [1, 2]⟩

end Libp2p
